import Mathlib

/-!
Verification of the Hololink control-plane driver (hololink.cpp).

The development shallowly embeds the control-plane protocol engine and the
bus-controller layers of `src/hololink/hololink.cpp`.  Two views of the code
are modelled, matching the two levels at which the source operates:

* `Wire`: the packet level — request serialization, the sequence counter,
  `Hololink::execute`'s receive/match loop, and the retry loops of
  `Hololink::read_uint32` / `Hololink::write_uint32`.  Network receptions are
  an explicit list of datagrams (byte lists); exhaustion of the list models
  the timeout deadline elapsing, and the `Timeout` policy is modelled as a
  retry allowance (`budget`), with `Timeout::retry()` returning false exactly
  when the allowance is spent.

* `RegAccess`: the register-access level — the I2C / SPI / GPIO controllers and
  the device lifecycle, which issue `read_uint32` / `write_uint32` calls.
  Here an engine call is an atomic interaction with a device oracle (`Dev`),
  every attempt is recorded in an access trace, and each attempt mints a
  fresh sequence number exactly as `Hololink::next_sequence` does.

Machine integers are `Nat` with explicit `% 2^w` where the code relies on
wrap-around (the 16-bit sequence counter, 32-bit register values).
-/

/-! ## Protocol constants

Constants marked "from hololink.cpp" appear literally in the translated
source file; the remaining command codes, flag bits and register addresses
live in `hololink.hpp`, which is not part of the repository snapshot, and are
modelled from the spec (sections 4 and 6), which names them but fixes no
numeric values.  The claims treat them symbolically, so only their
distinctness as bit patterns matters.
-/

/-- Modelled from the spec: command code of a register-write request
(`cmd_code` byte of the request frame); declared in the missing
hololink.hpp. -/
def WR_DWORD : Nat := 0x04

/-- Modelled from the spec: command code of a register-read request;
declared in the missing hololink.hpp. -/
def RD_DWORD : Nat := 0x14

/-- Modelled from the spec: the ACK_REQUEST request flag; declared in the
missing hololink.hpp. -/
def REQUEST_FLAGS_ACK_REQUEST : Nat := 0x01

/-- Modelled from the spec: the SEQUENCE_CHECK request flag; declared in the
missing hololink.hpp. -/
def REQUEST_FLAGS_SEQUENCE_CHECK : Nat := 0x02

/-- Modelled from the spec: the SUCCESS response code; declared in the
missing hololink.hpp. -/
def RESPONSE_SUCCESS : Nat := 0x00

/-- From hololink.cpp (anonymous namespace): request/reply buffers are
allocated at this size. -/
def CONTROL_PACKET_SIZE : Nat := 20

/-- Modelled from the spec: I2C controller control-register START bit;
declared in the missing hololink.hpp. -/
def I2C_START : Nat := 0x001

/-- Modelled from the spec: I2C controller core-enable bit; declared in the
missing hololink.hpp. -/
def I2C_CORE_EN : Nat := 0x002

/-- Modelled from the spec: I2C controller DONE-clear pulse bit; declared in
the missing hololink.hpp. -/
def I2C_DONE_CLEAR : Nat := 0x010

/-- Modelled from the spec: I2C controller BUSY status bit; declared in the
missing hololink.hpp. -/
def I2C_BUSY : Nat := 0x100

/-- Modelled from the spec: I2C controller DONE status bit; declared in the
missing hololink.hpp. -/
def I2C_DONE : Nat := 0x200

/-- From hololink.cpp: SPI control-register START bit. -/
def SPI_START : Nat := 0x001

/-- From hololink.cpp: SPI control-register BUSY status bit. -/
def SPI_BUSY : Nat := 0x100

/-- From hololink.cpp: SPI configuration clock-polarity bit. -/
def SPI_CFG_CPOL : Nat := 0x10

/-- From hololink.cpp: SPI configuration clock-phase bit. -/
def SPI_CFG_CPHA : Nat := 0x20

/-- From hololink.cpp: base address of the GPIO output register bank. -/
def GPIO_OUTPUT_BASE_REGISTER : Nat := 0x0C

/-- From hololink.cpp: base address of the GPIO direction register bank. -/
def GPIO_DIRECTION_BASE_REGISTER : Nat := 0x2C

/-- From hololink.cpp: base address of the GPIO status register bank. -/
def GPIO_STATUS_BASE_REGISTER : Nat := 0x8C

/-- From hololink.cpp: address stride between GPIO bank registers. -/
def GPIO_REGISTER_ADDRESS_OFFSET : Nat := 0x04

/-- Modelled from the spec: upper bound on the GPIO pin space (the comment
in hololink.cpp states the FPGA supports up to 256 pins); declared in the
missing hololink.hpp. -/
def GPIO_PIN_RANGE : Nat := 256

/-- Modelled from the spec: GPIO input direction value; `set_direction`
sets the direction bit for IN, so IN denotes bit value 1. -/
def GPIO_IN : Nat := 1

/-- Modelled from the spec: GPIO output direction value; `set_direction`
clears the direction bit for OUT, so OUT denotes bit value 0. -/
def GPIO_OUT : Nat := 0

/-- Modelled from the spec: GPIO logical high output value. -/
def GPIO_HIGH : Nat := 1

/-- Modelled from the spec: GPIO logical low output value. -/
def GPIO_LOW : Nat := 0

/-- Modelled from the spec: address of the firmware version register
(register map, section 6); declared in the missing hololink.hpp.  Its value
is word aligned. -/
def FPGA_VERSION : Nat := 0x80

/-- Modelled from the spec: base address of the CLNX SPI controller used by
the hardware-reset sequence; declared in the missing hololink.hpp.  Its
value is word aligned. -/
def CLNX_SPI_CTRL : Nat := 0x300

/-- Error taxonomy of the spec, section 7.  The C++ code raises
`std::runtime_error` with distinguishing messages plus the dedicated
`TimeoutError` class; each throw site is mapped to its taxonomy bucket.
`assertFailed` models a C++ `assert` whose condition does not hold, and
`serializationFailed` the "Unable to serialize/deserialize" throws. -/
inductive Err where
  | invalidArgument : Err
  | protocolError : Err
  | timeoutError : Err
  | invalidState : Err
  | unsupportedDevice : Err
  | assertFailed : Err
  | serializationFailed : Err
deriving DecidableEq, Repr

/-- Equality of fallible results is decidable when both components are. -/
instance {e a : Type} [DecidableEq e] [DecidableEq a] :
    DecidableEq (Except e a) := fun x y =>
  match x, y with
  | Except.error e1, Except.error e2 =>
    if h : e1 = e2 then Decidable.isTrue (by rw [h])
    else Decidable.isFalse (by intro hc; injection hc; contradiction)
  | Except.error _, Except.ok _ =>
    Decidable.isFalse (by intro hc; exact Except.noConfusion hc)
  | Except.ok _, Except.error _ =>
    Decidable.isFalse (by intro hc; exact Except.noConfusion hc)
  | Except.ok a1, Except.ok a2 =>
    if h : a1 = a2 then Decidable.isTrue (by rw [h])
    else Decidable.isFalse (by intro hc; injection hc; contradiction)

namespace Wire

/-- Packet-level session state: the 16-bit sequence counter
(`Hololink::sequence_`), the remaining retry allowance of the operation's
`Timeout` policy, and the log of request datagrams handed to
`send_control` (sequence number and serialized bytes). -/
structure WState where
  sequence : Nat
  budget : Nat
  sent : List (Nat × List Nat)
deriving DecidableEq, Repr

/-- `Hololink::next_sequence`: returns the current counter value and
post-increments it; the counter is a `uint16_t`, so the increment wraps
modulo 65536. -/
def next_sequence (st : WState) : Nat × WState :=
  (st.sequence, { st with sequence := (st.sequence + 1) % 65536 })

/-- Modelled from the spec: `native::Serializer` (native/serializer.hpp is
not in the repository snapshot).  A bounded byte buffer; appends fail when
the capacity would be exceeded, which the callers turn into an "Unable to
serialize" error. -/
structure Serializer where
  capacity : Nat
  data : List Nat
deriving DecidableEq, Repr

/-- Modelled from the spec: append one byte. -/
def Serializer.append_uint8 (s : Serializer) (v : Nat) : Option Serializer :=
  if s.data.length + 1 ≤ s.capacity then
    some { s with data := s.data ++ [v % 256] }
  else
    none

/-- Modelled from the spec: append a 16-bit value, big-endian. -/
def Serializer.append_uint16_be (s : Serializer) (v : Nat) : Option Serializer := do
  let s1 ← s.append_uint8 (v / 256)
  s1.append_uint8 v

/-- Modelled from the spec: append a 32-bit value, big-endian. -/
def Serializer.append_uint32_be (s : Serializer) (v : Nat) : Option Serializer := do
  let s1 ← s.append_uint8 (v / 16777216)
  let s2 ← s1.append_uint8 (v / 65536)
  let s3 ← s2.append_uint8 (v / 256)
  s3.append_uint8 v

/-- The serialization block of `Hololink::write_uint32_`: command code
`WR_DWORD`, flags (ACK_REQUEST, plus SEQUENCE_CHECK when requested), the
sequence number big-endian, two reserved zero bytes, then address and value
big-endian.  The request buffer is sized `CONTROL_PACKET_SIZE` and then
trimmed to the serialized length. -/
def write_request (sequence address value : Nat) (sequence_check : Bool) :
    Option (List Nat) := do
  let s0 : Serializer := { capacity := CONTROL_PACKET_SIZE, data := [] }
  let flags :=
    REQUEST_FLAGS_ACK_REQUEST |||
      (if sequence_check then REQUEST_FLAGS_SEQUENCE_CHECK else 0)
  let s1 ← s0.append_uint8 WR_DWORD
  let s2 ← s1.append_uint8 flags
  let s3 ← s2.append_uint16_be sequence
  let s4 ← s3.append_uint8 0
  let s5 ← s4.append_uint8 0
  let s6 ← s5.append_uint32_be address
  let s7 ← s6.append_uint32_be value
  pure s7.data

/-- The serialization block of `Hololink::read_uint32_`: like
`write_request` but with command code `RD_DWORD` and no value field. -/
def read_request (sequence address : Nat) (sequence_check : Bool) :
    Option (List Nat) := do
  let s0 : Serializer := { capacity := CONTROL_PACKET_SIZE, data := [] }
  let flags :=
    REQUEST_FLAGS_ACK_REQUEST |||
      (if sequence_check then REQUEST_FLAGS_SEQUENCE_CHECK else 0)
  let s1 ← s0.append_uint8 RD_DWORD
  let s2 ← s1.append_uint8 flags
  let s3 ← s2.append_uint16_be sequence
  let s4 ← s3.append_uint8 0
  let s5 ← s4.append_uint8 0
  let s6 ← s5.append_uint32_be address
  pure s6.data

/-- Modelled from the spec: `native::Deserializer.next_uint8`
(native/deserializer.hpp is not in the repository snapshot): take one byte,
failing on a short buffer. -/
def next_uint8 : List Nat → Option (Nat × List Nat)
  | [] => none
  | b :: rest => some (b, rest)

/-- Modelled from the spec: take a 16-bit value, big-endian. -/
def next_uint16_be (l : List Nat) : Option (Nat × List Nat) := do
  let (b1, l1) ← next_uint8 l
  let (b0, l2) ← next_uint8 l1
  pure (b1 * 256 + b0, l2)

/-- Modelled from the spec: take a 32-bit value, big-endian. -/
def next_uint32_be (l : List Nat) : Option (Nat × List Nat) := do
  let (b3, l1) ← next_uint8 l
  let (b2, l2) ← next_uint8 l1
  let (b1, l3) ← next_uint8 l2
  let (b0, l4) ← next_uint8 l3
  pure (((b3 * 256 + b2) * 256 + b1) * 256 + b0, l4)

/-- The reply-header decode performed inside `Hololink::execute`:
`reply_cmd_code`, `reply_flags`, the big-endian sequence number and the
response code; returns the decoded sequence, response code and the
remaining bytes. -/
def decode_reply_header (reply : List Nat) : Option (Nat × Nat × List Nat) := do
  let (_cmd, l1) ← next_uint8 reply
  let (_flags, l2) ← next_uint8 l1
  let (rseq, l3) ← next_uint16_be l2
  let (rc, l4) ← next_uint8 l3
  pure (rseq, rc, l4)

/-- Outcome of `Hololink::execute`: either the deadline elapsed with no
matching reply (`timedOut`, the `{false, {}, nullptr}` return), or a reply
whose sequence number matched the outstanding request was found
(`matched`, carrying its response code and the bytes still held by the
deserializer). -/
inductive ExecResult where
  | timedOut : ExecResult
  | matched : Nat → List Nat → ExecResult
deriving DecidableEq, Repr

/-- `Hololink::execute` (the receive/match loop; the send itself carries no
information at this level).  `incoming` lists the datagrams produced by
successive `receive_control` calls before the deadline; once it is
exhausted — or when `receive_control` yields an empty buffer — the loop
reports a timeout.  A non-empty datagram too short for the reply header
raises the "Unable to deserialize" error; a decoded reply whose sequence
number differs from the outstanding request is skipped and the loop keeps
receiving. -/
def execute (sequence : Nat) : List (List Nat) → Except Err ExecResult
  | [] => Except.ok ExecResult.timedOut
  | reply :: more =>
    if reply.isEmpty then Except.ok ExecResult.timedOut
    else
      match decode_reply_header reply with
      | none => Except.error Err.serializationFailed
      | some (rseq, rc, rest) =>
        if sequence = rseq then Except.ok (ExecResult.matched rc rest)
        else execute sequence more

/-- The payload decode of `Hololink::read_uint32_` after a successful
match: one reserved byte, the echoed address, the value, and the device's
latched sequence number, all big-endian.  (The source additionally
`assert`s that the echoed address equals the request address; the claims do
not depend on that debug check.) -/
def decode_read_payload (l : List Nat) : Option (Nat × Nat × Nat) := do
  let (_reserved, l1) ← next_uint8 l
  let (response_address, l2) ← next_uint32_be l1
  let (value, l3) ← next_uint32_be l2
  let (latched_sequence, _l4) ← next_uint16_be l3
  pure (response_address, value, latched_sequence)

/-- `Hololink::read_uint32_` (one attempt): reject unaligned addresses,
mint the next sequence number, serialize the read request, send it (logged
in `sent`), and run `execute`.  Returns `none` on an execute-level timeout
(the `{false, {}}` return) and `some value` on a matched successful
reply; a non-success response code is a ProtocolError. -/
def read_uint32_ (address : Nat) (sequence_check : Bool)
    (incoming : List (List Nat)) (st : WState) :
    Except Err (Option Nat) × WState :=
  if address % 4 ≠ 0 then (Except.error Err.invalidArgument, st)
  else
    let (sequence, st1) := next_sequence st
    match read_request sequence address sequence_check with
    | none => (Except.error Err.serializationFailed, st1)
    | some request =>
      let st2 := { st1 with sent := st1.sent ++ [(sequence, request)] }
      match execute sequence incoming with
      | Except.error e => (Except.error e, st2)
      | Except.ok ExecResult.timedOut => (Except.ok none, st2)
      | Except.ok (ExecResult.matched rc rest) =>
        if rc ≠ RESPONSE_SUCCESS then (Except.error Err.protocolError, st2)
        else
          match decode_read_payload rest with
          | none => (Except.error Err.serializationFailed, st2)
          | some (_response_address, value, _latched) =>
            (Except.ok (some value), st2)

/-- The retry loop of `Hololink::read_uint32`: attempt, return the value on
success, raise `TimeoutError` when `Timeout::retry()` reports the deadline
spent (`budget = 0`), otherwise consume one retry and loop.  `net` gives
the datagrams received during each attempt.  `fuel` only bounds the
recursion; callers start it at the budget, which the loop decrements in
lock step, so the `fuel = 0` fallback is never the deciding exit. -/
def read_uint32_loop (address : Nat) (sequence_check : Bool)
    (net : Nat → List (List Nat)) :
    Nat → Nat → WState → Except Err Nat × WState
  | fuel, attempt, st =>
    match read_uint32_ address sequence_check (net attempt) st with
    | (Except.error e, st') => (Except.error e, st')
    | (Except.ok (some v), st') => (Except.ok v, st')
    | (Except.ok none, st') =>
      if st'.budget = 0 then (Except.error Err.timeoutError, st')
      else
        match fuel with
        | 0 => (Except.error Err.timeoutError, st')
        | fuel' + 1 =>
          read_uint32_loop address sequence_check net fuel' (attempt + 1)
            { st' with budget := st'.budget - 1 }

/-- `Hololink::read_uint32`: run the retry loop against the state's timeout
allowance. -/
def read_uint32 (address : Nat) (sequence_check : Bool)
    (net : Nat → List (List Nat)) (st : WState) : Except Err Nat × WState :=
  read_uint32_loop address sequence_check net st.budget 0 st

/-- `Hololink::write_uint32_` (one attempt): reject unaligned addresses,
mint the next sequence number, serialize the write request, send it (logged
in `sent`), and run `execute`.  Returns `false` on an execute-level
timeout; a matched reply with a non-success response code is a
ProtocolError.  (The source's branch for a present-but-valueless response
code is unreachable — `execute` pairs `status = true` with a concrete
response code — and is not modelled.) -/
def write_uint32_ (address value : Nat) (sequence_check : Bool)
    (incoming : List (List Nat)) (st : WState) : Except Err Bool × WState :=
  if address % 4 ≠ 0 then (Except.error Err.invalidArgument, st)
  else
    let (sequence, st1) := next_sequence st
    match write_request sequence address value sequence_check with
    | none => (Except.error Err.serializationFailed, st1)
    | some request =>
      let st2 := { st1 with sent := st1.sent ++ [(sequence, request)] }
      match execute sequence incoming with
      | Except.error e => (Except.error e, st2)
      | Except.ok ExecResult.timedOut => (Except.ok false, st2)
      | Except.ok (ExecResult.matched rc _rest) =>
        if rc ≠ RESPONSE_SUCCESS then (Except.error Err.protocolError, st2)
        else (Except.ok true, st2)

/-- The retry loop of `Hololink::write_uint32`: attempt; on a `false`
status stop immediately when `retry` is disabled (the no-ack write path),
otherwise raise `TimeoutError` once `Timeout::retry()` reports the
deadline spent, else consume one retry and loop. -/
def write_uint32_loop (address value : Nat) (sequence_check retry : Bool)
    (net : Nat → List (List Nat)) :
    Nat → Nat → WState → Except Err Bool × WState
  | fuel, attempt, st =>
    match write_uint32_ address value sequence_check (net attempt) st with
    | (Except.error e, st') => (Except.error e, st')
    | (Except.ok true, st') => (Except.ok true, st')
    | (Except.ok false, st') =>
      if retry = false then (Except.ok false, st')
      else if st'.budget = 0 then (Except.error Err.timeoutError, st')
      else
        match fuel with
        | 0 => (Except.error Err.timeoutError, st')
        | fuel' + 1 =>
          write_uint32_loop address value sequence_check retry net fuel'
            (attempt + 1) { st' with budget := st'.budget - 1 }

/-- `Hololink::write_uint32`: run the retry loop against the state's
timeout allowance. -/
def write_uint32 (address value : Nat) (sequence_check retry : Bool)
    (net : Nat → List (List Nat)) (st : WState) : Except Err Bool × WState :=
  write_uint32_loop address value sequence_check retry net st.budget 0 st

end Wire

namespace RegAccess

/-- One control-plane attempt as seen at the register-access level: a read
or a write of a word-aligned address, tagged with the sequence number the
attempt was sent under. -/
inductive Reg where
  | rd : Nat → Nat → Reg
  | wr : Nat → Nat → Nat → Reg
deriving DecidableEq, Repr

/-- Register-level session state: the 16-bit sequence counter, the retry
allowance of the currently governing `Timeout` policy, the chronological
trace of attempts put on the wire, and the log of reset-listener
invocations (`Hololink::reset_controllers_` callbacks, identified by
opaque tags). -/
structure DState where
  sequence : Nat
  budget : Nat
  trace : List Reg
  listeners : List Nat
deriving DecidableEq, Repr

/-- What the device does with one attempt: stay silent until the host's
receive deadline elapses, or answer with a response code and (for reads) a
value. -/
inductive Outcome where
  | timeout : Outcome
  | reply : Nat → Nat → Outcome
deriving DecidableEq, Repr

/-- The device oracle: replies may depend on the full history of attempts
(the trace so far), which lets a model device change state — e.g. turn on
a DONE bit after seeing a START write. -/
structure Dev where
  rd : List Reg → Nat → Outcome
  wr : List Reg → Nat → Nat → Outcome

/-- State-threading computations over `DState` that can fail; the state at
the moment of failure is preserved, mirroring a C++ exception thrown after
side effects happened. -/
def EngM (α : Type) : Type := DState → Except Err α × DState

/-- Sequential composition for `EngM`; an error short-circuits but keeps
the state. -/
def EngM.bindE {α β : Type} (m : EngM α) (f : α → EngM β) : EngM β :=
  fun st =>
    match m st with
    | (Except.ok a, st') => f a st'
    | (Except.error e, st') => (Except.error e, st')

/-- Result injection for `EngM`. -/
def EngM.pureE {α : Type} (a : α) : EngM α := fun st => (Except.ok a, st)

instance : Monad EngM where
  pure := EngM.pureE
  bind := EngM.bindE

/-- Raising an error in `EngM`. -/
def throwE {α : Type} (e : Err) : EngM α := fun st => (Except.error e, st)

/-- The 16-bit post-increment of `Hololink::next_sequence`. -/
def nextSeq (s : Nat) : Nat := (s + 1) % 65536

/-- The attempt loop of `Hololink::read_uint32` seen at this level: each
attempt mints a fresh sequence number and goes on the wire (the trace);
the device oracle answers based on the history before the attempt.  A
successful reply yields the 32-bit value; a non-success response code is a
ProtocolError; silence retries until `Timeout::retry()` reports the
deadline spent (`budget = 0`), then raises `TimeoutError`.  `fuel` only
bounds the recursion; callers start it above the budget, which the loop
decrements in lock step. -/
def read_loop (dev : Dev) (address : Nat) : Nat → EngM Nat
  | 0 => throwE Err.timeoutError
  | fuel + 1 => fun st =>
    let seq := st.sequence
    let st1 := { st with
      sequence := nextSeq st.sequence
      trace := st.trace ++ [Reg.rd address seq] }
    match dev.rd st.trace address with
    | Outcome.reply rc v =>
      if rc = RESPONSE_SUCCESS then (Except.ok (v % 4294967296), st1)
      else (Except.error Err.protocolError, st1)
    | Outcome.timeout =>
      if st1.budget = 0 then (Except.error Err.timeoutError, st1)
      else read_loop dev address fuel { st1 with budget := st1.budget - 1 }

/-- `Hololink::read_uint32` at the register-access level.  `tmo = some b`
models a call that builds a fresh `Timeout` policy with allowance `b`
(`Timeout::default_timeout(...)` on an absent argument); `tmo = none`
models a call into a policy shared with the enclosing transaction, whose
remaining allowance is already in the state. -/
def read_uint32 (dev : Dev) (address : Nat) (tmo : Option Nat) : EngM Nat :=
  fun st =>
    if address % 4 ≠ 0 then (Except.error Err.invalidArgument, st)
    else
      let st' := match tmo with
        | some b => { st with budget := b }
        | none => st
      read_loop dev address (st'.budget + 1) st'

/-- The attempt loop of `Hololink::write_uint32` seen at this level: as for
reads, but device silence first returns a `false` status; with `retry`
disabled the call stops there and hands `false` back (the no-ack write
path), otherwise it retries until the deadline is spent. -/
def write_loop (dev : Dev) (address value : Nat) (retry : Bool) :
    Nat → EngM Bool
  | 0 => throwE Err.timeoutError
  | fuel + 1 => fun st =>
    let seq := st.sequence
    let st1 := { st with
      sequence := nextSeq st.sequence
      trace := st.trace ++ [Reg.wr address value seq] }
    match dev.wr st.trace address value with
    | Outcome.reply rc _v =>
      if rc = RESPONSE_SUCCESS then (Except.ok true, st1)
      else (Except.error Err.protocolError, st1)
    | Outcome.timeout =>
      if retry = false then (Except.ok false, st1)
      else if st1.budget = 0 then (Except.error Err.timeoutError, st1)
      else write_loop dev address value retry fuel
        { st1 with budget := st1.budget - 1 }

/-- `Hololink::write_uint32` at the register-access level; see
`read_uint32` for the `tmo` convention. -/
def write_uint32 (dev : Dev) (address value : Nat) (tmo : Option Nat)
    (retry : Bool) : EngM Bool :=
  fun st =>
    if address % 4 ≠ 0 then (Except.error Err.invalidArgument, st)
    else
      let st' := match tmo with
        | some b => { st with budget := b }
        | none => st
      write_loop dev address value retry (st'.budget + 1) st'

/-- Modelled from the spec: the retry allowance of the default `Timeout`
policy (`Timeout::default_timeout`); the policy object lives outside the
repository snapshot, and only the allowance it grants matters here. -/
def DEFAULT_BUDGET : Nat := 20

/-- Modelled from the spec: the retry allowance of `Timeout::i2c_timeout`. -/
def I2C_BUDGET : Nat := 20

/-- Modelled from the spec: the retry allowance of `Timeout::spi_timeout`. -/
def SPI_BUDGET : Nat := 20

/-- Modelled from the spec: the retry allowance of the extended
`Timeout(30, 0.2)` used while re-reading the firmware version (covers
address-resolution latency). -/
def GET_VERSION_BUDGET : Nat := 150

/-- The word-packing loop shared by `I2c::i2c_transaction` and
`Spi::spi_transaction`: up to four payload bytes (each below 256, being
`uint8_t`) packed little-endian into one register word, missing trailing
bytes reading as zero. -/
def pack_le : List Nat → Nat
  | [] => 0
  | [b0] => b0
  | [b0, b1] => b0 + b1 * 256
  | [b0, b1, b2] => b0 + b1 * 256 + b2 * 65536
  | b0 :: b1 :: b2 :: b3 :: _ => b0 + b1 * 256 + b2 * 65536 + b3 * 16777216

/-- The payload byte stream cut into little-endian register words, the
trailing partial word zero-padded (the `index += 4` loops of the bus
controllers). -/
def le_words : List Nat → List Nat
  | [] => []
  | [b0] => [pack_le [b0]]
  | [b0, b1] => [pack_le [b0, b1]]
  | [b0, b1, b2] => [pack_le [b0, b1, b2]]
  | b0 :: b1 :: b2 :: b3 :: rest => pack_le [b0, b1, b2, b3] :: le_words rest

/-- A 32-bit register word split into its four little-endian bytes (the
`(value >> 8*k) & 0xFF` unpacking of the read-back loops). -/
def le_bytes4 (v : Nat) : List Nat :=
  [v % 256, v / 256 % 256, v / 65536 % 256, v / 16777216 % 256]

/-- The data-buffer write loop of the bus controllers: word `i` goes to
`base + 4 * i`, under the transaction's shared timeout. -/
def write_payload (dev : Dev) (base : Nat) : Nat → List Nat → EngM Unit
  | _i, [] => EngM.pureE ()
  | i, w :: ws => do
    let _ ← write_uint32 dev (base + 4 * i) w none true
    write_payload dev base (i + 1) ws

/-- The data-buffer read-back loop of the bus controllers: `k` words
starting at word index `i` of the buffer at `base`, each unpacked into its
four little-endian bytes, under the transaction's shared timeout. -/
def read_words (dev : Dev) (base : Nat) : Nat → Nat → EngM (List Nat)
  | _i, 0 => EngM.pureE []
  | i, k + 1 => do
    let v ← read_uint32 dev (base + 4 * i) none
    let bs ← read_words dev base (i + 1) k
    pure (le_bytes4 v ++ bs)

/-- One `Timeout::retry()` consultation inside a polling loop: the
deadline spent raises `TimeoutError`, otherwise one retry is consumed and
the loop continues. -/
def retryStep (continue_loop : EngM Unit) : EngM Unit := fun st =>
  if st.budget = 0 then (Except.error Err.timeoutError, st)
  else continue_loop { st with budget := st.budget - 1 }

/-- Runs a fuel-indexed loop with fuel strictly above the current retry
allowance, so the fuel guard can never fire before the allowance is
spent. -/
def withBudgetFuel {α : Type} (f : Nat → EngM α) : EngM α :=
  fun st => f (st.budget + 1) st

/-- `Hololink::I2c`: the register bank of the (single, shared) I2C
controller, fixed offsets from the controller base address. -/
structure I2c where
  reg_control : Nat
  reg_num_bytes : Nat
  reg_clk_ctrl : Nat
  reg_data_buffer : Nat
deriving DecidableEq, Repr

/-- The `Hololink::I2c` constructor. -/
def I2c.ofAddress (i2c_address : Nat) : I2c :=
  { reg_control := i2c_address
    reg_num_bytes := i2c_address + 4
    reg_clk_ctrl := i2c_address + 8
    reg_data_buffer := i2c_address + 16 }

/-- The first polling loop of `I2c::i2c_transaction`: issue START, then
re-read the control register; leave as soon as BUSY or DONE appears,
otherwise consult the shared timeout and re-issue START. -/
def i2c_start_poll (dev : Dev) (i2c : I2c) (peripheral_i2c_address : Nat) :
    Nat → EngM Unit
  | 0 => throwE Err.timeoutError
  | fuel + 1 => do
    let control := (peripheral_i2c_address <<< 16) ||| I2C_CORE_EN ||| I2C_START
    let _ ← write_uint32 dev i2c.reg_control control none true
    let value ← read_uint32 dev i2c.reg_control none
    if value &&& (I2C_DONE ||| I2C_BUSY) ≠ 0 then EngM.pureE ()
    else retryStep (i2c_start_poll dev i2c peripheral_i2c_address fuel)

/-- The second polling loop of `I2c::i2c_transaction`: read the control
register until DONE appears, bounded by the shared timeout. -/
def i2c_done_poll (dev : Dev) (i2c : I2c) : Nat → EngM Unit
  | 0 => throwE Err.timeoutError
  | fuel + 1 => do
    let value ← read_uint32 dev i2c.reg_control none
    if value &&& I2C_DONE ≠ 0 then EngM.pureE ()
    else retryStep (i2c_done_poll dev i2c fuel)

/-- The body of `I2c::i2c_transaction` after argument validation and
timeout setup: BUSY precondition read, peripheral-address programming with
a DONE_CLEAR pulse, the DONE==0 assertion, byte counts, payload, the two
polling loops, then the read-back truncated to the requested length. -/
def i2c_transaction_body (i2c : I2c) (dev : Dev)
    (peripheral_i2c_address : Nat) (write_bytes : List Nat)
    (read_byte_count : Nat) : EngM (List Nat) := do
  let value ← read_uint32 dev i2c.reg_control none
  if value &&& I2C_BUSY ≠ 0 then
    throwE Err.protocolError
  else
    let control := (peripheral_i2c_address <<< 16) ||| I2C_CORE_EN ||| I2C_DONE_CLEAR
    let _ ← write_uint32 dev i2c.reg_control control none true
    let control2 := (peripheral_i2c_address <<< 16) ||| I2C_CORE_EN
    let _ ← write_uint32 dev i2c.reg_control control2 none true
    let value2 ← read_uint32 dev i2c.reg_control none
    if value2 &&& I2C_DONE ≠ 0 then
      throwE Err.assertFailed
    else
      let num_bytes := write_bytes.length ||| (read_byte_count <<< 8)
      let _ ← write_uint32 dev i2c.reg_num_bytes num_bytes none true
      let _ ← write_payload dev i2c.reg_data_buffer 0 (le_words write_bytes)
      let _ ← withBudgetFuel (i2c_start_poll dev i2c peripheral_i2c_address)
      let _ ← withBudgetFuel (i2c_done_poll dev i2c)
      let word_count := (read_byte_count + 3) / 4
      let r ← read_words dev i2c.reg_data_buffer 0 word_count
      pure (r.take read_byte_count)

/-- `I2c::i2c_transaction`: validate the peripheral address and the byte
counts before any I/O, then run the transaction under the I2C timeout
policy.  (The shared I2C lock serializes concurrent callers and is not
observable at this level.) -/
def i2c_transaction (i2c : I2c) (dev : Dev) (peripheral_i2c_address : Nat)
    (write_bytes : List Nat) (read_byte_count : Nat) : EngM (List Nat) :=
  fun st =>
    if peripheral_i2c_address ≥ 0x80 then (Except.error Err.invalidArgument, st)
    else if write_bytes.length ≥ 0x100 then (Except.error Err.invalidArgument, st)
    else if read_byte_count ≥ 0x100 then (Except.error Err.invalidArgument, st)
    else
      i2c_transaction_body i2c dev peripheral_i2c_address write_bytes
        read_byte_count { st with budget := I2C_BUDGET }

/-- `Hololink::Spi`: the register bank of the (single, shared) SPI
controller plus the fixed-at-construction configuration word and
turnaround cycles. -/
structure Spi where
  reg_control : Nat
  reg_num_bytes : Nat
  reg_spi_cfg : Nat
  reg_num_bytes2 : Nat
  reg_data_buffer : Nat
  spi_cfg : Nat
  turnaround_cycles : Nat
deriving DecidableEq, Repr

/-- The `Hololink::Spi` constructor (turnaround cycles start at zero). -/
def Spi.ofAddress (address spi_cfg : Nat) : Spi :=
  { reg_control := address
    reg_num_bytes := address + 4
    reg_spi_cfg := address + 8
    reg_num_bytes2 := address + 12
    reg_data_buffer := address + 16
    spi_cfg := spi_cfg
    turnaround_cycles := 0 }

/-- The bus-width field encoding of `Hololink::get_spi`; the C++
`std::map::operator[]` default-inserts 0 for an unsupported width. -/
def width_map (width : Nat) : Nat :=
  if width = 1 then 0
  else if width = 2 then 2 <<< 8
  else if width = 4 then 3 <<< 8
  else 0

/-- `Hololink::get_spi`: validate clock divisor and chip select, then
assemble the configuration word. -/
def get_spi (spi_address chip_select clock_divisor cpol cpha width : Nat) :
    Except Err Spi :=
  if clock_divisor ≥ 16 then Except.error Err.invalidArgument
  else if chip_select ≥ 8 then Except.error Err.invalidArgument
  else
    let cfg0 := clock_divisor ||| (chip_select <<< 12) ||| width_map width
    let cfg1 := if cpol ≠ 0 then cfg0 ||| SPI_CFG_CPOL else cfg0
    let cfg2 := if cpha ≠ 0 then cfg1 ||| SPI_CFG_CPHA else cfg1
    Except.ok (Spi.ofAddress spi_address cfg2)

/-- The polling loop of `Spi::spi_transaction`: read the control register
until BUSY clears, bounded by the shared timeout. -/
def spi_busy_poll (dev : Dev) (spi : Spi) : Nat → EngM Unit
  | 0 => throwE Err.timeoutError
  | fuel + 1 => do
    let value ← read_uint32 dev spi.reg_control none
    if value &&& SPI_BUSY = 0 then EngM.pureE ()
    else retryStep (spi_busy_poll dev spi fuel)

/-- The body of `Spi::spi_transaction` after the size checks and timeout
setup: not-busy assertion, configuration, payload, byte-count registers,
START without retry (an unacknowledged START is a hard failure), the BUSY
poll, then the full-duplex read-back from the first word boundary at or
below the written region, sliced down to the trailing read region. -/
def spi_transaction_body (spi : Spi) (dev : Dev) (write_bytes : List Nat)
    (write_command_count read_byte_count : Nat) : EngM (List Nat) := do
  let write_byte_count := write_bytes.length
  let buffer_count := write_byte_count + read_byte_count
  let value ← read_uint32 dev spi.reg_control none
  if value &&& SPI_BUSY ≠ 0 then
    throwE Err.assertFailed
  else
    let _ ← write_uint32 dev spi.reg_spi_cfg spi.spi_cfg none true
    let _ ← write_payload dev spi.reg_data_buffer 0 (le_words write_bytes)
    let num_bytes := write_byte_count ||| (read_byte_count <<< 16)
    let _ ← write_uint32 dev spi.reg_num_bytes num_bytes none true
    if spi.turnaround_cycles ≥ 16 then
      throwE Err.assertFailed
    else
      let num_bytes2 := spi.turnaround_cycles ||| (write_command_count <<< 8)
      let _ ← write_uint32 dev spi.reg_num_bytes2 num_bytes2 none true
      let status ← write_uint32 dev spi.reg_control SPI_START none false
      if status = false then
        throwE Err.protocolError
      else
        let _ ← withBudgetFuel (spi_busy_poll dev spi)
        let start_byte_offset := write_byte_count - write_byte_count % 4
        let k := (buffer_count - start_byte_offset + 3) / 4
        let bytes ← read_words dev spi.reg_data_buffer (write_byte_count / 4) k
        let r := List.replicate start_byte_offset 0 ++ bytes ++
          List.replicate (buffer_count + 3 - (start_byte_offset + 4 * k)) 0
        pure ((r.drop write_byte_count).take read_byte_count)

/-- `Spi::spi_transaction`: the command-byte-count check (the field packed
into `num_bytes2` is four bits wide) and the 288-byte in-flight buffer
budget check, both before any I/O, then the transaction under the SPI
timeout policy.  (The shared SPI lock is not observable at this level.) -/
def spi_transaction (spi : Spi) (dev : Dev)
    (write_command_bytes write_data_bytes : List Nat)
    (read_byte_count : Nat) : EngM (List Nat) :=
  fun st =>
    let write_bytes := write_command_bytes ++ write_data_bytes
    let write_command_count := write_command_bytes.length
    if write_command_count ≥ 16 then (Except.error Err.invalidArgument, st)
    else
      let write_byte_count := write_bytes.length
      let buffer_count := write_byte_count + read_byte_count
      if buffer_count ≥ 288 then (Except.error Err.invalidArgument, st)
      else
        spi_transaction_body spi dev write_bytes write_command_count
          read_byte_count { st with budget := SPI_BUDGET }

/-- `Hololink::GPIO`: the board-specific pin count fixed at
construction. -/
structure GPIO where
  gpio_pin_number : Nat
deriving DecidableEq, Repr

/-- The `Hololink::GPIO` constructor: the requested pin count must not
exceed the 256-pin system limit. -/
def GPIO.ofPinCount (gpio_pin_number : Nat) : Except Err GPIO :=
  if gpio_pin_number > GPIO_PIN_RANGE then Except.error Err.invalidArgument
  else Except.ok { gpio_pin_number := gpio_pin_number }

/-- `GPIO::set_bit`. -/
def set_bit (value bit : Nat) : Nat := value ||| (1 <<< bit)

/-- `GPIO::clear_bit` (`value & ~(1 << bit)` on a 32-bit word). -/
def clear_bit (value bit : Nat) : Nat :=
  value &&& (4294967295 ^^^ (1 <<< bit))

/-- `GPIO::read_bit`. -/
def read_bit (value bit : Nat) : Nat := (value >>> bit) &&& 1

/-- `GPIO::get_direction`: read the direction bank word holding the pin
and extract its bit; an out-of-range pin is rejected. -/
def GPIO.get_direction (g : GPIO) (dev : Dev) (pin : Nat) : EngM Nat :=
  fun st =>
    if pin < g.gpio_pin_number then
      (do
        let register_address :=
          GPIO_DIRECTION_BASE_REGISTER + pin / 32 * GPIO_REGISTER_ADDRESS_OFFSET
        let reg_val ← read_uint32 dev register_address (some DEFAULT_BUDGET)
        pure (read_bit reg_val (pin % 32)) : EngM Nat) st
    else (Except.error Err.invalidArgument, st)

/-- `GPIO::set_direction`: read-modify-write of the pin's direction bit; a
direction other than IN or OUT is rejected. -/
def GPIO.set_direction (g : GPIO) (dev : Dev) (pin direction : Nat) :
    EngM Unit :=
  fun st =>
    if pin < g.gpio_pin_number then
      (do
        let register_address :=
          GPIO_DIRECTION_BASE_REGISTER + pin / 32 * GPIO_REGISTER_ADDRESS_OFFSET
        let pin_bit := pin % 32
        let reg_val ← read_uint32 dev register_address (some DEFAULT_BUDGET)
        if direction = GPIO_IN then do
          let _ ← write_uint32 dev register_address (set_bit reg_val pin_bit)
            (some DEFAULT_BUDGET) true
          pure ()
        else if direction = GPIO_OUT then do
          let _ ← write_uint32 dev register_address (clear_bit reg_val pin_bit)
            (some DEFAULT_BUDGET) true
          pure ()
        else throwE Err.invalidArgument : EngM Unit) st
    else (Except.error Err.invalidArgument, st)

/-- `GPIO::set_value`: check the pin range, read the pin's direction, and
only for an output pin read the status bank and read-modify-write the
output bank; writing to an input pin is an InvalidState failure raised
before any write is issued. -/
def GPIO.set_value (g : GPIO) (dev : Dev) (pin value : Nat) : EngM Unit :=
  fun st =>
    if pin < g.gpio_pin_number then
      (do
        let direction ← g.get_direction dev pin
        let status_register_address :=
          GPIO_STATUS_BASE_REGISTER + pin / 32 * GPIO_REGISTER_ADDRESS_OFFSET
        let output_register_address :=
          GPIO_OUTPUT_BASE_REGISTER + pin / 32 * GPIO_REGISTER_ADDRESS_OFFSET
        let pin_bit := pin % 32
        if direction = GPIO_OUT then do
          let reg_val ← read_uint32 dev status_register_address
            (some DEFAULT_BUDGET)
          if value = GPIO_HIGH then do
            let _ ← write_uint32 dev output_register_address
              (set_bit reg_val pin_bit) (some DEFAULT_BUDGET) true
            pure ()
          else if value = GPIO_LOW then do
            let _ ← write_uint32 dev output_register_address
              (clear_bit reg_val pin_bit) (some DEFAULT_BUDGET) true
            pure ()
          else throwE Err.invalidArgument
        else throwE Err.invalidState : EngM Unit) st
    else (Except.error Err.invalidArgument, st)

/-- `GPIO::get_value`: read the status bank word holding the pin and
extract its bit. -/
def GPIO.get_value (g : GPIO) (dev : Dev) (pin : Nat) : EngM Nat :=
  fun st =>
    if pin < g.gpio_pin_number then
      (do
        let register_address :=
          GPIO_STATUS_BASE_REGISTER + pin / 32 * GPIO_REGISTER_ADDRESS_OFFSET
        let reg_val ← read_uint32 dev register_address (some DEFAULT_BUDGET)
        pure (read_bit reg_val (pin % 32)) : EngM Nat) st
    else (Except.error Err.invalidArgument, st)

/-- The `try { ... } catch (...) { log }` wrapper in `Hololink::reset`
around the reset-trigger write: any error is swallowed, side effects up to
the throw are kept. -/
def try_ignore {α : Type} (m : EngM α) : EngM Unit := fun st =>
  match m st with
  | (Except.ok _, st') => (Except.ok (), st')
  | (Except.error _, st') => (Except.ok (), st')

/-- The listener-notification loop at the end of `Hololink::reset`: every
registered reset controller is invoked synchronously, in registration
order; the callbacks are opaque at this level and only their invocation is
recorded. -/
def notify_reset_controllers : List Nat → EngM Unit
  | [] => EngM.pureE ()
  | c :: cs => fun st =>
    notify_reset_controllers cs { st with listeners := st.listeners ++ [c] }

/-- The `sequence_ = 1` resynchronization inside `Hololink::reset`: the
device just reset its latched sequence number to 0, so the next request
must carry sequence 1. -/
def resync_sequence : EngM Unit := fun st =>
  (Except.ok (), { st with sequence := 1 })

/-- `Hololink::get_fpga_version`: one register read of the version
register. -/
def get_fpga_version (dev : Dev) (tmo : Option Nat) : EngM Nat :=
  read_uint32 dev FPGA_VERSION tmo

/-- `Hololink::reset`: the SPI sequence driving the power/clock component,
the plain register writes, the reset-trigger write issued without retry
and with its error swallowed (the device never replies to it), the
sequence-counter resynchronization, the liveness re-read of the firmware
version, and finally the listener notifications.  The discovery collaborator
(`Enumerator::find_channel`) and the ARP cache seeding touch no device
registers and have no footprint at this level; the model assumes
re-enumeration succeeds, as claim scenarios about `reset` do. -/
def reset (dev : Dev) (reset_controllers : List Nat) : EngM Unit :=
  match get_spi CLNX_SPI_CTRL 0 15 0 1 1 with
  | Except.error e => throwE e
  | Except.ok spi => do
    let _ ← spi_transaction spi dev [0x01, 0x07] [0x0C] 0
    let _ ← write_uint32 dev 0x8 0 (some DEFAULT_BUDGET) true
    let _ ← spi_transaction spi dev [0x01, 0x07] [0x0F] 0
    let _ ← write_uint32 dev 0x8 0x3 (some DEFAULT_BUDGET) true
    let _ ← try_ignore (write_uint32 dev 0x4 0x8 (some DEFAULT_BUDGET) false)
    let _ ← resync_sequence
    let _ ← get_fpga_version dev (some GET_VERSION_BUDGET)
    notify_reset_controllers reset_controllers

/-! ### Concrete devices and states for evaluating the model -/

/-- A device that acknowledges every attempt immediately, reading all
registers as zero. -/
def happyDev : Dev :=
  { rd := fun _ _ => Outcome.reply RESPONSE_SUCCESS 0
    wr := fun _ _ _ => Outcome.reply RESPONSE_SUCCESS 0 }

/-- A device whose I2C control register reads with the BUSY bit set. -/
def i2cBusyDev : Dev :=
  { rd := fun _ _ => Outcome.reply RESPONSE_SUCCESS I2C_BUSY
    wr := fun _ _ _ => Outcome.reply RESPONSE_SUCCESS 0 }

/-- A device whose GPIO direction bank reads as all-input. -/
def gpioInputDev : Dev :=
  { rd := fun _ _ => Outcome.reply RESPONSE_SUCCESS 4294967295
    wr := fun _ _ _ => Outcome.reply RESPONSE_SUCCESS 0 }

/-- A device completing an I2C transaction at controller base 0x400: the
control register reads DONE once a START write is in the history and idle
before, and the first two data-buffer words hold distinguishable bytes. -/
def i2cDemoDev : Dev :=
  { rd := fun hist addr =>
      if addr = 0x400 then
        if hist.any (fun a =>
            match a with
            | Reg.wr a2 v _ => a2 = 0x400 && v &&& I2C_START ≠ 0
            | Reg.rd _ _ => false) then
          Outcome.reply RESPONSE_SUCCESS I2C_DONE
        else Outcome.reply RESPONSE_SUCCESS 0
      else if addr = 0x410 then Outcome.reply RESPONSE_SUCCESS 0x44332211
      else if addr = 0x414 then Outcome.reply RESPONSE_SUCCESS 0x88776655
      else Outcome.reply RESPONSE_SUCCESS 0
    wr := fun _ _ _ => Outcome.reply RESPONSE_SUCCESS 0 }

/-- A register-level start state mid-session. -/
def st0 : DState := { sequence := 256, budget := 0, trace := [], listeners := [] }

/-- A computation is well-footprinted when, from any state, it leaves the
listener log untouched and only ever appends to the access trace —
whether it succeeds or fails.  Every register-level operation of the model
has this shape. -/
def EngAppends {α : Type} (m : EngM α) : Prop :=
  ∀ st : DState,
    ((m st).2).listeners = st.listeners ∧
    ∃ t, ((m st).2).trace = st.trace ++ t

end RegAccess

/-- A packet-level start state mid-session. -/
def wst0 : Wire.WState := { sequence := 4660, budget := 3, sent := [] }

/-! ## Theorems -/

/-- Claim C10: `spi_transaction` additionally requires the command-byte
list to be shorter than 16 bytes (the width of the command-byte-count
field in the num_bytes2 register): with 16 or more command bytes the call
fails before any network I/O — the state, including the access trace, is
returned untouched. -/
theorem spi_transaction_command_count_limit_no_io
    (spi : RegAccess.Spi) (dev : RegAccess.Dev)
    (write_command_bytes write_data_bytes : List Nat)
    (read_byte_count : Nat) (st : RegAccess.DState)
    (h : write_command_bytes.length ≥ 16) :
    RegAccess.spi_transaction spi dev write_command_bytes write_data_bytes
      read_byte_count st = (Except.error Err.invalidArgument, st) := by
  simp [RegAccess.spi_transaction, h]

/-- Witness for C10: a 16-byte command list is rejected with no I/O. -/
theorem spi_transaction_command_count_limit_no_io_witness :
    (List.replicate 16 1).length ≥ 16 ∧
      RegAccess.spi_transaction (RegAccess.Spi.ofAddress 0x300 47) RegAccess.happyDev
        (List.replicate 16 1) [] 0 RegAccess.st0 =
        (Except.error Err.invalidArgument, RegAccess.st0) :=
  ⟨by decide,
    spi_transaction_command_count_limit_no_io _ _ _ _ _ _ (by decide)⟩

/-- Claim C6: an SPI transaction whose combined write plus read footprint
reaches the 288-byte hardware buffer budget fails with InvalidArgument
before any network I/O — the state, including the access trace, is
returned untouched. -/
theorem spi_transaction_buffer_budget_invalid_argument_no_io
    (spi : RegAccess.Spi) (dev : RegAccess.Dev)
    (write_command_bytes write_data_bytes : List Nat)
    (read_byte_count : Nat) (st : RegAccess.DState)
    (h : write_command_bytes.length + write_data_bytes.length +
      read_byte_count ≥ 288) :
    RegAccess.spi_transaction spi dev write_command_bytes write_data_bytes
      read_byte_count st = (Except.error Err.invalidArgument, st) := by
  by_cases h16 : write_command_bytes.length ≥ 16
  · simp [RegAccess.spi_transaction, h16]
  · have hb : (write_command_bytes ++ write_data_bytes).length +
        read_byte_count ≥ 288 := by
      simp only [List.length_append]
      omega
    simp only [RegAccess.spi_transaction, h16, if_false, ite_false, if_neg,
      List.length_append]
    rw [if_pos (by omega)]

/-- Witness for C6: one command byte, 287 data bytes and no read bytes
total 288 and are rejected with no I/O. -/
theorem spi_transaction_buffer_budget_invalid_argument_no_io_witness :
    (1 : Nat) + 287 + 0 ≥ 288 ∧
      RegAccess.spi_transaction (RegAccess.Spi.ofAddress 0x300 47) RegAccess.happyDev
        [1] (List.replicate 287 2) 0 RegAccess.st0 =
        (Except.error Err.invalidArgument, RegAccess.st0) :=
  ⟨by decide,
    spi_transaction_buffer_budget_invalid_argument_no_io _ _ _ _ _ _
      (by simp only [List.length_replicate, List.length_cons,
        List.length_nil]; omega)⟩

/-- Unfolding lemma: monadic bind on `EngM` is `EngM.bindE`. -/
theorem engm_bind_def {α β : Type} (m : RegAccess.EngM α) (f : α → RegAccess.EngM β) :
    m >>= f = RegAccess.EngM.bindE m f := rfl

/-- Unfolding lemma: monadic pure on `EngM` is `EngM.pureE`. -/
theorem engm_pure_def {α : Type} (a : α) :
    (pure a : RegAccess.EngM α) = RegAccess.EngM.pureE a := rfl

/-- Evaluation lemma: a register read whose first attempt the device
answers resolves in that one attempt — successfully for a SUCCESS response
code, with a ProtocolError otherwise — minting one sequence number and
logging one read attempt. -/
theorem read_uint32_reply (dev : RegAccess.Dev) (address : Nat)
    (tmo : Option Nat) (st : RegAccess.DState) (rc v : Nat)
    (halign : address % 4 = 0)
    (hdev : dev.rd st.trace address = RegAccess.Outcome.reply rc v) :
    RegAccess.read_uint32 dev address tmo st =
      ((if rc = RESPONSE_SUCCESS then Except.ok (v % 4294967296)
        else Except.error Err.protocolError),
        { st with
          budget := tmo.getD st.budget
          sequence := RegAccess.nextSeq st.sequence
          trace := st.trace ++ [RegAccess.Reg.rd address st.sequence] }) := by
  cases tmo with
  | none =>
    simp [RegAccess.read_uint32, halign, RegAccess.read_loop, hdev]
    split <;> rfl
  | some b =>
    simp [RegAccess.read_uint32, halign, RegAccess.read_loop, hdev]
    split <;> rfl

/-- Evaluation lemma: a register write whose first attempt the device
answers resolves in that one attempt, `true` for a SUCCESS response code
and a ProtocolError otherwise. -/
theorem write_uint32_reply (dev : RegAccess.Dev) (address value : Nat)
    (tmo : Option Nat) (retry : Bool) (st : RegAccess.DState) (rc v : Nat)
    (halign : address % 4 = 0)
    (hdev : dev.wr st.trace address value = RegAccess.Outcome.reply rc v) :
    RegAccess.write_uint32 dev address value tmo retry st =
      ((if rc = RESPONSE_SUCCESS then Except.ok true
        else Except.error Err.protocolError),
        { st with
          budget := tmo.getD st.budget
          sequence := RegAccess.nextSeq st.sequence
          trace := st.trace ++ [RegAccess.Reg.wr address value st.sequence] }) := by
  cases tmo with
  | none =>
    simp [RegAccess.write_uint32, halign, RegAccess.write_loop, hdev]
    split <;> rfl
  | some b =>
    simp [RegAccess.write_uint32, halign, RegAccess.write_loop, hdev]
    split <;> rfl

/-- Evaluation lemma: a register write with retry disabled to which the
device stays silent returns `false` after its single attempt, raising
nothing. -/
theorem write_uint32_timeout_noretry (dev : RegAccess.Dev) (address value : Nat)
    (tmo : Option Nat) (st : RegAccess.DState)
    (halign : address % 4 = 0)
    (hdev : dev.wr st.trace address value = RegAccess.Outcome.timeout) :
    RegAccess.write_uint32 dev address value tmo false st =
      (Except.ok false,
        { st with
          budget := tmo.getD st.budget
          sequence := RegAccess.nextSeq st.sequence
          trace := st.trace ++ [RegAccess.Reg.wr address value st.sequence] }) := by
  cases tmo with
  | none => simp [RegAccess.write_uint32, halign, RegAccess.write_loop, hdev]
  | some b => simp [RegAccess.write_uint32, halign, RegAccess.write_loop, hdev]

/-- Claim C5: an `i2c_transaction` whose initial read of the I2C control
register comes back with the BUSY bit set fails with ProtocolError having
issued exactly that one precondition read — the trace grows by the single
read attempt and nothing else, in particular no register write. -/
theorem i2c_busy_precondition_fails_protocol_no_writes
    (base peripheral_i2c_address : Nat) (write_bytes : List Nat)
    (read_byte_count : Nat) (dev : RegAccess.Dev) (st : RegAccess.DState) (v : Nat)
    (halign : base % 4 = 0)
    (hperiph : peripheral_i2c_address < 0x80)
    (hwb : write_bytes.length < 0x100)
    (hrbc : read_byte_count < 0x100)
    (hdev : dev.rd st.trace (RegAccess.I2c.ofAddress base).reg_control =
      RegAccess.Outcome.reply RESPONSE_SUCCESS v)
    (hv : v < 4294967296)
    (hbusy : v &&& I2C_BUSY ≠ 0) :
    RegAccess.i2c_transaction (RegAccess.I2c.ofAddress base) dev
      peripheral_i2c_address write_bytes read_byte_count st =
      (Except.error Err.protocolError,
        { st with
          budget := RegAccess.I2C_BUDGET
          sequence := RegAccess.nextSeq st.sequence
          trace := st.trace ++ [RegAccess.Reg.rd base st.sequence] }) := by
  have hv' : v % 4294967296 = v := Nat.mod_eq_of_lt hv
  have halign' : (RegAccess.I2c.ofAddress base).reg_control % 4 = 0 := by
    simpa [RegAccess.I2c.ofAddress] using halign
  have hdev' : dev.rd
      ({ st with budget := RegAccess.I2C_BUDGET } : RegAccess.DState).trace
      (RegAccess.I2c.ofAddress base).reg_control =
      RegAccess.Outcome.reply RESPONSE_SUCCESS v := hdev
  simp only [RegAccess.i2c_transaction]
  rw [if_neg (by omega), if_neg (by omega), if_neg (by omega)]
  simp only [RegAccess.i2c_transaction_body, engm_bind_def, RegAccess.EngM.bindE]
  rw [read_uint32_reply dev _ none _ RESPONSE_SUCCESS v halign' hdev']
  simp [hv', hbusy, RegAccess.throwE, RegAccess.nextSeq, RegAccess.I2c.ofAddress]

/-- Witness for C5: a device reporting BUSY makes a concrete I2C
transaction fail after exactly the one precondition read. -/
theorem i2c_busy_precondition_fails_protocol_no_writes_witness :
    RegAccess.i2c_transaction (RegAccess.I2c.ofAddress 0x400) RegAccess.i2cBusyDev 0x50
      [1] 2 RegAccess.st0 =
      (Except.error Err.protocolError,
        { RegAccess.st0 with
          budget := RegAccess.I2C_BUDGET
          sequence := RegAccess.nextSeq RegAccess.st0.sequence
          trace := RegAccess.st0.trace ++
            [RegAccess.Reg.rd 0x400 RegAccess.st0.sequence] }) :=
  i2c_busy_precondition_fails_protocol_no_writes 0x400 0x50 [1] 2
    RegAccess.i2cBusyDev RegAccess.st0 I2C_BUSY (by decide) (by decide) (by decide)
    (by decide) rfl (by decide) (by decide)

/-- Claim C8: `GPIO::set_value` on an in-range pin whose direction reads
back as input fails with InvalidState having issued only the single
direction-bank read — no register write appears in the trace. -/
theorem gpio_set_value_input_pin_invalid_state_no_write
    (g : RegAccess.GPIO) (dev : RegAccess.Dev) (pin value : Nat)
    (st : RegAccess.DState) (v : Nat)
    (hpin : pin < g.gpio_pin_number)
    (hdev : dev.rd st.trace
      (GPIO_DIRECTION_BASE_REGISTER +
        pin / 32 * GPIO_REGISTER_ADDRESS_OFFSET) =
      RegAccess.Outcome.reply RESPONSE_SUCCESS v)
    (hv : v < 4294967296)
    (hdir : RegAccess.read_bit v (pin % 32) = GPIO_IN) :
    RegAccess.GPIO.set_value g dev pin value st =
      (Except.error Err.invalidState,
        { st with
          budget := RegAccess.DEFAULT_BUDGET
          sequence := RegAccess.nextSeq st.sequence
          trace := st.trace ++
            [RegAccess.Reg.rd (GPIO_DIRECTION_BASE_REGISTER +
              pin / 32 * GPIO_REGISTER_ADDRESS_OFFSET) st.sequence] }) := by
  have hv' : v % 4294967296 = v := Nat.mod_eq_of_lt hv
  have halign : (GPIO_DIRECTION_BASE_REGISTER +
      pin / 32 * GPIO_REGISTER_ADDRESS_OFFSET) % 4 = 0 := by
    simp only [GPIO_DIRECTION_BASE_REGISTER, GPIO_REGISTER_ADDRESS_OFFSET]
    omega
  simp only [RegAccess.GPIO.set_value, RegAccess.GPIO.get_direction, hpin, if_pos,
    engm_bind_def, RegAccess.EngM.bindE, engm_pure_def, RegAccess.EngM.pureE]
  rw [read_uint32_reply dev _ (some RegAccess.DEFAULT_BUDGET) st
    RESPONSE_SUCCESS v halign hdev]
  simp [hv', hdir, GPIO_IN, GPIO_OUT, RegAccess.throwE]

/-- Witness for C8: writing HIGH to input-configured pin 3 of a 54-pin
board fails InvalidState after only the direction read. -/
theorem gpio_set_value_input_pin_invalid_state_no_write_witness :
    RegAccess.GPIO.set_value { gpio_pin_number := 54 } RegAccess.gpioInputDev 3
      GPIO_HIGH RegAccess.st0 =
      (Except.error Err.invalidState,
        { RegAccess.st0 with
          budget := RegAccess.DEFAULT_BUDGET
          sequence := RegAccess.nextSeq RegAccess.st0.sequence
          trace := RegAccess.st0.trace ++
            [RegAccess.Reg.rd (GPIO_DIRECTION_BASE_REGISTER +
              3 / 32 * GPIO_REGISTER_ADDRESS_OFFSET) RegAccess.st0.sequence] }) :=
  gpio_set_value_input_pin_invalid_state_no_write { gpio_pin_number := 54 }
    RegAccess.gpioInputDev 3 GPIO_HIGH RegAccess.st0 4294967295 (by decide) rfl
    (by decide) (by decide)

/-- Claim C7: a `write_uint32` marked as not expecting an acknowledgement
(retry disabled, the reset-trigger path) that receives no reply returns
`false` without raising TimeoutError or any other error. -/
theorem write_uint32_no_ack_returns_false
    (address value : Nat) (sequence_check : Bool) (st : Wire.WState)
    (halign : address % 4 = 0) :
    (Wire.write_uint32 address value sequence_check false (fun _ => []) st).1 =
      Except.ok false := by
  simp [Wire.write_uint32, Wire.write_uint32_loop, Wire.write_uint32_,
    halign, Wire.next_sequence, Wire.write_request,
    Wire.Serializer.append_uint8, Wire.Serializer.append_uint16_be,
    Wire.Serializer.append_uint32_be, Wire.execute, CONTROL_PACKET_SIZE]

/-- Witness for C7: a concrete no-ack write with no reply returns
`false`. -/
theorem write_uint32_no_ack_returns_false_witness :
    (Wire.write_uint32 8 3 false false (fun _ => []) wst0).1 =
      Except.ok false :=
  write_uint32_no_ack_returns_false 8 3 false wst0 (by decide)

/-- Serialization lemma for C4: the write-request serializer produces
exactly the expected byte list. -/
theorem write_request_bytes (address value : Nat) (sequence_check : Bool)
    (sequence : Nat)
    (hseq : sequence < 65536)
    (haddr : address < 4294967296)
    (hvalue : value < 4294967296) :
    Wire.write_request sequence address value sequence_check =
      some [WR_DWORD,
        REQUEST_FLAGS_ACK_REQUEST |||
          (if sequence_check then REQUEST_FLAGS_SEQUENCE_CHECK else 0),
        sequence / 256, sequence % 256, 0, 0,
        address / 16777216, address / 65536 % 256, address / 256 % 256,
        address % 256,
        value / 16777216, value / 65536 % 256, value / 256 % 256,
        value % 256] := by
  have h1 : sequence / 256 % 256 = sequence / 256 := by omega
  have h2 : address / 16777216 % 256 = address / 16777216 := by omega
  have h3 : value / 16777216 % 256 = value / 16777216 := by omega
  cases sequence_check with
  | false =>
    simp [Wire.write_request, Wire.Serializer.append_uint8,
      Wire.Serializer.append_uint16_be, Wire.Serializer.append_uint32_be,
      CONTROL_PACKET_SIZE, WR_DWORD, REQUEST_FLAGS_ACK_REQUEST,
      REQUEST_FLAGS_SEQUENCE_CHECK, h1, h2, h3, Nat.mod_mod_of_dvd]
  | true =>
    simp [Wire.write_request, Wire.Serializer.append_uint8,
      Wire.Serializer.append_uint16_be, Wire.Serializer.append_uint32_be,
      CONTROL_PACKET_SIZE, WR_DWORD, REQUEST_FLAGS_ACK_REQUEST,
      REQUEST_FLAGS_SEQUENCE_CHECK, h1, h2, h3, Nat.mod_mod_of_dvd]

/-- Claim C4: the request datagram `write_uint32_` hands to the transport
is exactly the 14-byte frame cmd/flags/sequence/reserved/reserved/address/
value, with sequence, address and value big-endian, the command byte
`WR_DWORD`, and the flags ACK_REQUEST plus SEQUENCE_CHECK exactly when
sequence checking is requested; it is logged in `sent` under the minted
sequence number whatever the device then does. -/
theorem write_request_frame_exact
    (address value : Nat) (sequence_check : Bool)
    (incoming : List (List Nat)) (st : Wire.WState)
    (halign : address % 4 = 0)
    (hseq : st.sequence < 65536)
    (haddr : address < 4294967296)
    (hvalue : value < 4294967296) :
    ∃ frame : List Nat,
      (Wire.write_uint32_ address value sequence_check incoming st).2.sent =
        st.sent ++ [(st.sequence, frame)] ∧
      frame = [WR_DWORD,
        REQUEST_FLAGS_ACK_REQUEST |||
          (if sequence_check then REQUEST_FLAGS_SEQUENCE_CHECK else 0),
        st.sequence / 256, st.sequence % 256, 0, 0,
        address / 16777216, address / 65536 % 256, address / 256 % 256,
        address % 256,
        value / 16777216, value / 65536 % 256, value / 256 % 256,
        value % 256] ∧
      frame.length = 14 := by
  refine ⟨_, ?_, rfl, by simp⟩
  unfold Wire.write_uint32_
  rw [if_neg (by omega)]
  simp only [Wire.next_sequence]
  rw [write_request_bytes address value sequence_check st.sequence hseq
    haddr hvalue]
  cases hex : Wire.execute st.sequence incoming with
  | error e => simp
  | ok r =>
    cases r with
    | timedOut => simp
    | matched rc rest =>
      by_cases hrc : rc ≠ RESPONSE_SUCCESS
      · simp [hrc]
      · simp [hrc]

/-- Witness for C4: a concrete write request serializes to the expected
frame. -/
theorem write_request_frame_exact_witness :
    ∃ frame : List Nat,
      (Wire.write_uint32_ 4 3735928559 true [] wst0).2.sent =
        wst0.sent ++ [(wst0.sequence, frame)] ∧
      frame = [WR_DWORD,
        REQUEST_FLAGS_ACK_REQUEST ||| REQUEST_FLAGS_SEQUENCE_CHECK,
        wst0.sequence / 256, wst0.sequence % 256, 0, 0,
        0, 0, 0, 4, 222, 173, 190, 239] ∧
      frame.length = 14 := by
  have h := write_request_frame_exact 4 3735928559 true [] wst0 (by decide)
    (by decide) (by decide) (by decide)
  simpa using h

/-- Claim C1: for every request driven through the `execute` loop, a
received reply whose sequence number differs from the outstanding
request's is discarded and never returned: the call yields a reply only
when that reply decodes to the outstanding sequence number, and yields
"no reply" (timed out) only when every datagram received before the
deadline decoded to some other sequence number.  `incoming` are the
datagrams actually received before the deadline (a `receive_control`
timeout ends the list, so no element is empty). -/
theorem execute_matches_only_outstanding_sequence
    (sequence : Nat) (incoming : List (List Nat)) (r : Wire.ExecResult)
    (hne : [] ∉ incoming)
    (h : Wire.execute sequence incoming = Except.ok r) :
    (∀ rc rest, r = Wire.ExecResult.matched rc rest →
      ∃ reply, reply ∈ incoming ∧ ∃ rest2,
        Wire.decode_reply_header reply = some (sequence, rc, rest2)) ∧
    (r = Wire.ExecResult.timedOut →
      ∀ reply ∈ incoming, ∃ rseq rc rest2,
        Wire.decode_reply_header reply = some (rseq, rc, rest2) ∧
        rseq ≠ sequence) := by
  revert hne h
  induction incoming with
  | nil =>
    intro hne h
    simp only [Wire.execute, Except.ok.injEq] at h
    subst h
    constructor
    · intro rc rest hr
      cases hr
    · intro _ reply hmem
      simp at hmem
  | cons reply more ih =>
    intro hne h
    have hne1 : reply ≠ [] := by
      intro hcontra
      exact hne (by simp [hcontra])
    have hne2 : [] ∉ more := fun hm => hne (List.mem_cons_of_mem _ hm)
    rw [Wire.execute, if_neg (by simpa [List.isEmpty_iff] using hne1)] at h
    cases hdec : Wire.decode_reply_header reply with
    | none =>
      rw [hdec] at h
      cases h
    | some trip =>
      obtain ⟨rseq, rc2, rest2⟩ := trip
      rw [hdec] at h
      dsimp only at h
      by_cases hs : sequence = rseq
      · rw [if_pos hs] at h
        cases h
        constructor
        · intro rc rest hr
          cases hr
          exact ⟨reply, List.mem_cons_self reply more, rest2,
            by rw [hdec, hs]⟩
        · intro ht
          cases ht
      · rw [if_neg hs] at h
        have hrec := ih hne2 h
        constructor
        · intro rc rest hr
          obtain ⟨p, hp, rest3, hdp⟩ := hrec.1 rc rest hr
          exact ⟨p, List.mem_cons_of_mem _ hp, rest3, hdp⟩
        · intro ht p hp
          rcases List.mem_cons.mp hp with hpe | hpm
          · subst hpe
            exact ⟨rseq, rc2, rest2, hdec, fun hc => hs hc.symm⟩
          · exact hrec.2 ht p hpm

/-- Witness for C1: with a stale reply (sequence 2) ahead of the matching
one (sequence 1), the loop returns the matching reply, and the theorem
recovers its membership and decode. -/
theorem execute_matches_only_outstanding_sequence_witness :
    ∃ reply, reply ∈ [[1, 0, 0, 2, 9, 5], [1, 0, 0, 1, 0, 7]] ∧
      ∃ rest2, Wire.decode_reply_header reply = some (1, 0, rest2) :=
  (execute_matches_only_outstanding_sequence 1
    [[1, 0, 0, 2, 9, 5], [1, 0, 0, 1, 0, 7]]
    (Wire.ExecResult.matched 0 [7]) (by decide) (by rfl)).1 0 [7] rfl

/-- Evaluation lemma: one read attempt during which nothing is received
ends as an execute-level timeout, having minted one sequence number and
sent one request. -/
theorem read_uint32_attempt_noreply (address : Nat) (sequence_check : Bool)
    (st : Wire.WState) (halign : address % 4 = 0) :
    ∃ req, Wire.read_uint32_ address sequence_check [] st =
      (Except.ok none,
        { st with
          sequence := (st.sequence + 1) % 65536
          sent := st.sent ++ [(st.sequence, req)] }) := by
  unfold Wire.read_uint32_
  rw [if_neg (by omega)]
  simp only [Wire.next_sequence]
  cases sequence_check with
  | false =>
    simp [Wire.read_request, Wire.Serializer.append_uint8,
      Wire.Serializer.append_uint16_be, Wire.Serializer.append_uint32_be,
      CONTROL_PACKET_SIZE, Wire.execute]
  | true =>
    simp [Wire.read_request, Wire.Serializer.append_uint8,
      Wire.Serializer.append_uint16_be, Wire.Serializer.append_uint32_be,
      CONTROL_PACKET_SIZE, Wire.execute]

/-- Peeling one attempt off a run of consecutive 16-bit counter values. -/
theorem range_mod_cons (s n : Nat) (hs : s < 65536) :
    (List.range (n + 1)).map (fun i => (s + i) % 65536) =
      s :: (List.range n).map (fun i => ((s + 1) % 65536 + i) % 65536) := by
  rw [List.range_succ_eq_map]
  simp only [List.map_cons, List.map_map, Nat.add_zero, Nat.mod_eq_of_lt hs]
  congr 1
  apply List.map_congr_left
  intro i _
  simp only [Function.comp_apply, Nat.mod_add_mod]
  congr 1
  omega

/-- Loop lemma: with no replies ever arriving and an allowance of `fuel`
remaining retries, the read loop makes exactly `fuel + 1` attempts whose
minted sequence numbers are consecutive counter values, then raises
TimeoutError. -/
theorem read_uint32_loop_noreply (address : Nat) (sequence_check : Bool) :
    ∀ (fuel attempt : Nat) (st : Wire.WState),
      address % 4 = 0 → st.budget = fuel → st.sequence < 65536 →
      (Wire.read_uint32_loop address sequence_check (fun _ => [])
        fuel attempt st).1 = Except.error Err.timeoutError ∧
      ((Wire.read_uint32_loop address sequence_check (fun _ => [])
        fuel attempt st).2).sent.map Prod.fst =
        st.sent.map Prod.fst ++
          (List.range (fuel + 1)).map (fun i => (st.sequence + i) % 65536) := by
  intro fuel
  induction fuel with
  | zero =>
    intro attempt st halign hb hseq
    obtain ⟨req, hreq⟩ := read_uint32_attempt_noreply address sequence_check
      st halign
    rw [Wire.read_uint32_loop, hreq]
    simp [hb, Nat.mod_eq_of_lt hseq]
    rw [show List.range 1 = [0] from rfl]
    simp [Nat.mod_eq_of_lt hseq]
  | succ fuel ih =>
    intro attempt st halign hb hseq
    obtain ⟨req, hreq⟩ := read_uint32_attempt_noreply address sequence_check
      st halign
    rw [Wire.read_uint32_loop, hreq]
    simp only [hb]
    rw [if_neg (by omega)]
    simp only [Nat.add_sub_cancel]
    have hseq2 : (st.sequence + 1) % 65536 < 65536 := Nat.mod_lt _ (by omega)
    have hrec := ih (attempt + 1)
      { st with
        budget := fuel
        sequence := (st.sequence + 1) % 65536
        sent := st.sent ++ [(st.sequence, req)] } halign rfl hseq2
    refine ⟨hrec.1, ?_⟩
    rw [hrec.2]
    simp only [List.map_append, List.map_cons, List.map_nil]
    rw [List.append_assoc]
    congr 1
    rw [range_mod_cons st.sequence (fuel + 1) hseq]
    rfl

/-- Distinctness lemma: at most 65536 consecutive 16-bit counter values
are pairwise distinct. -/
theorem seq_mod_range_nodup (s n : Nat) (h : n ≤ 65536) :
    ((List.range n).map (fun i => (s + i) % 65536)).Nodup := by
  apply List.Nodup.map_on ?_ (List.nodup_range _)
  intro i hi j hj hij
  simp only [List.mem_range] at hi hj
  omega

/-- Claim C2: when no matching reply ever arrives, `read_uint32` raises
TimeoutError only once the timeout allowance is exhausted — after exactly
allowance-plus-one attempts — and the attempts carry consecutive counter
values, pairwise distinct as long as at most 65536 attempts fit in the
allowance (the counter is 16 bits and increments once per attempt). -/
theorem read_uint32_timeout_retries_distinct_sequences
    (address : Nat) (sequence_check : Bool) (st : Wire.WState)
    (halign : address % 4 = 0)
    (hseq : st.sequence < 65536)
    (hwrap : st.budget + 1 ≤ 65536) :
    (Wire.read_uint32 address sequence_check (fun _ => []) st).1 =
      Except.error Err.timeoutError ∧
    ((Wire.read_uint32 address sequence_check (fun _ => []) st).2).sent.map
        Prod.fst =
      st.sent.map Prod.fst ++
        (List.range (st.budget + 1)).map (fun i => (st.sequence + i) % 65536) ∧
    ((List.range (st.budget + 1)).map
      (fun i => (st.sequence + i) % 65536)).Nodup := by
  have h := read_uint32_loop_noreply address sequence_check st.budget 0 st
    halign rfl hseq
  exact ⟨h.1, h.2, seq_mod_range_nodup st.sequence (st.budget + 1) hwrap⟩

/-- Witness for C2: from a concrete state with a 3-retry allowance and no
replies, the read makes four attempts with sequences 4660..4663 and then
times out. -/
theorem read_uint32_timeout_retries_distinct_sequences_witness :
    (Wire.read_uint32 4 false (fun _ => []) wst0).1 =
      Except.error Err.timeoutError ∧
    ((Wire.read_uint32 4 false (fun _ => []) wst0).2).sent.map Prod.fst =
      wst0.sent.map Prod.fst ++
        (List.range (wst0.budget + 1)).map
          (fun i => (wst0.sequence + i) % 65536) ∧
    ((List.range (wst0.budget + 1)).map
      (fun i => (wst0.sequence + i) % 65536)).Nodup :=
  read_uint32_timeout_retries_distinct_sequences 4 false wst0 (by decide)
    (by decide) (by decide)

/-- Footprint combinator: pure computations. -/
theorem appends_pureE {α : Type} (a : α) :
    RegAccess.EngAppends (RegAccess.EngM.pureE a) := by
  intro st
  exact ⟨rfl, [], by simp [RegAccess.EngM.pureE]⟩

/-- Footprint combinator: raising an error. -/
theorem appends_throwE {α : Type} (e : Err) :
    RegAccess.EngAppends (RegAccess.throwE e : RegAccess.EngM α) := by
  intro st
  exact ⟨rfl, [], by simp [RegAccess.throwE]⟩

/-- Footprint combinator: sequential composition. -/
theorem appends_bindE {α β : Type} (m : RegAccess.EngM α) (f : α → RegAccess.EngM β)
    (hm : RegAccess.EngAppends m) (hf : ∀ a, RegAccess.EngAppends (f a)) :
    RegAccess.EngAppends (RegAccess.EngM.bindE m f) := by
  intro st
  unfold RegAccess.EngM.bindE
  cases hms : m st with
  | mk res st1 =>
    have hm1 := hm st
    rw [hms] at hm1
    cases res with
    | error e => exact hm1
    | ok a =>
      obtain ⟨hl1, t1, ht1⟩ := hm1
      obtain ⟨hl2, t2, ht2⟩ := hf a st1
      refine ⟨by rw [hl2, hl1], t1 ++ t2, ?_⟩
      rw [ht2, ht1, List.append_assoc]

/-- Footprint combinator: sequential composition via the monad
interface. -/
theorem appends_bind {α β : Type} (m : RegAccess.EngM α) (f : α → RegAccess.EngM β)
    (hm : RegAccess.EngAppends m) (hf : ∀ a, RegAccess.EngAppends (f a)) :
    RegAccess.EngAppends (m >>= f) := by
  rw [engm_bind_def]
  exact appends_bindE m f hm hf

/-- Footprint combinator: branching. -/
theorem appends_ite {α : Type} (c : Prop) [Decidable c]
    (m1 m2 : RegAccess.EngM α) (h1 : RegAccess.EngAppends m1)
    (h2 : RegAccess.EngAppends m2) :
    RegAccess.EngAppends (if c then m1 else m2) := by
  by_cases hc : c
  · simpa [hc] using h1
  · simpa [hc] using h2

/-- Footprint combinator: a `Timeout::retry()` step. -/
theorem appends_retryStep (m : RegAccess.EngM Unit) (h : RegAccess.EngAppends m) :
    RegAccess.EngAppends (RegAccess.retryStep m) := by
  intro st
  unfold RegAccess.retryStep
  by_cases hb : st.budget = 0
  · exact ⟨by simp [hb], [], by simp [hb]⟩
  · have := h { st with budget := st.budget - 1 }
    simpa [hb] using this

/-- Footprint combinator: budget-derived fuel. -/
theorem appends_withBudgetFuel {α : Type} (f : Nat → RegAccess.EngM α)
    (h : ∀ fuel, RegAccess.EngAppends (f fuel)) :
    RegAccess.EngAppends (RegAccess.withBudgetFuel f) := by
  intro st
  exact h (st.budget + 1) st

/-- Footprint of the read attempt loop. -/
theorem appends_read_loop (dev : RegAccess.Dev) (address : Nat) :
    ∀ fuel, RegAccess.EngAppends (RegAccess.read_loop dev address fuel) := by
  intro fuel
  induction fuel with
  | zero => exact appends_throwE _
  | succ fuel ih =>
    intro st
    simp only [RegAccess.read_loop]
    cases dev.rd st.trace address with
    | reply rc v =>
      by_cases hrc : rc = RESPONSE_SUCCESS
      · exact ⟨by simp [hrc], [RegAccess.Reg.rd address st.sequence], by simp [hrc]⟩
      · exact ⟨by simp [hrc], [RegAccess.Reg.rd address st.sequence], by simp [hrc]⟩
    | timeout =>
      by_cases hb : st.budget = 0
      · exact ⟨by simp [hb], [RegAccess.Reg.rd address st.sequence], by simp [hb]⟩
      · have := ih { st with
          sequence := RegAccess.nextSeq st.sequence
          trace := st.trace ++ [RegAccess.Reg.rd address st.sequence]
          budget := st.budget - 1 }
        obtain ⟨hl, t, ht⟩ := this
        simp only [hb]
        refine ⟨by simpa using hl, RegAccess.Reg.rd address st.sequence :: t, ?_⟩
        simpa [List.append_assoc] using ht

/-- Footprint of the write attempt loop. -/
theorem appends_write_loop (dev : RegAccess.Dev) (address value : Nat)
    (retry : Bool) :
    ∀ fuel, RegAccess.EngAppends (RegAccess.write_loop dev address value retry fuel) := by
  intro fuel
  induction fuel with
  | zero => exact appends_throwE _
  | succ fuel ih =>
    intro st
    simp only [RegAccess.write_loop]
    cases dev.wr st.trace address value with
    | reply rc v =>
      by_cases hrc : rc = RESPONSE_SUCCESS
      · exact ⟨by simp [hrc], [RegAccess.Reg.wr address value st.sequence],
          by simp [hrc]⟩
      · exact ⟨by simp [hrc], [RegAccess.Reg.wr address value st.sequence],
          by simp [hrc]⟩
    | timeout =>
      cases retry with
      | false =>
        exact ⟨by simp, [RegAccess.Reg.wr address value st.sequence], by simp⟩
      | true =>
        by_cases hb : st.budget = 0
        · exact ⟨by simp [hb], [RegAccess.Reg.wr address value st.sequence],
            by simp [hb]⟩
        · have := ih { st with
            sequence := RegAccess.nextSeq st.sequence
            trace := st.trace ++ [RegAccess.Reg.wr address value st.sequence]
            budget := st.budget - 1 }
          obtain ⟨hl, t, ht⟩ := this
          simp only [hb]
          refine ⟨by simpa using hl,
            RegAccess.Reg.wr address value st.sequence :: t, ?_⟩
          simpa [List.append_assoc] using ht

/-- Footprint of `read_uint32`. -/
theorem appends_read_uint32 (dev : RegAccess.Dev) (address : Nat)
    (tmo : Option Nat) :
    RegAccess.EngAppends (RegAccess.read_uint32 dev address tmo) := by
  intro st
  unfold RegAccess.read_uint32
  by_cases ha : address % 4 ≠ 0
  · exact ⟨by simp [ha], [], by simp [ha]⟩
  · simp only [ha, if_false, ite_false, if_neg]
    cases tmo with
    | none => exact appends_read_loop dev address _ st
    | some b =>
      have := appends_read_loop dev address (b + 1) { st with budget := b }
      simpa using this

/-- Footprint of `write_uint32`. -/
theorem appends_write_uint32 (dev : RegAccess.Dev) (address value : Nat)
    (tmo : Option Nat) (retry : Bool) :
    RegAccess.EngAppends (RegAccess.write_uint32 dev address value tmo retry) := by
  intro st
  unfold RegAccess.write_uint32
  by_cases ha : address % 4 ≠ 0
  · exact ⟨by simp [ha], [], by simp [ha]⟩
  · simp only [ha, if_false, ite_false, if_neg]
    cases tmo with
    | none => exact appends_write_loop dev address value retry _ st
    | some b =>
      have := appends_write_loop dev address value retry (b + 1)
        { st with budget := b }
      simpa using this

/-- Footprint combinator: pure via the monad interface. -/
theorem appends_pure {α : Type} (a : α) :
    RegAccess.EngAppends (pure a : RegAccess.EngM α) := by
  rw [engm_pure_def]
  exact appends_pureE a

/-- Footprint of the payload write loop. -/
theorem appends_write_payload (dev : RegAccess.Dev) (base : Nat) :
    ∀ (ws : List Nat) (i : Nat),
      RegAccess.EngAppends (RegAccess.write_payload dev base i ws) := by
  intro ws
  induction ws with
  | nil => intro i; exact appends_pureE ()
  | cons w ws ih =>
    intro i
    simp only [RegAccess.write_payload]
    exact appends_bind _ _ (appends_write_uint32 dev (base + 4 * i) w none true)
      (fun _ => ih (i + 1))

/-- Footprint of the read-back loop. -/
theorem appends_read_words (dev : RegAccess.Dev) (base : Nat) :
    ∀ (k i : Nat), RegAccess.EngAppends (RegAccess.read_words dev base i k) := by
  intro k
  induction k with
  | zero => intro i; exact appends_pureE []
  | succ k ih =>
    intro i
    simp only [RegAccess.read_words]
    apply appends_bind _ _ (appends_read_uint32 dev (base + 4 * i) none)
    intro v
    apply appends_bind _ _ (ih (i + 1))
    intro bs
    exact appends_pure _

/-- Footprint of the I2C start polling loop. -/
theorem appends_i2c_start_poll (dev : RegAccess.Dev) (i2c : RegAccess.I2c)
    (peripheral_i2c_address : Nat) :
    ∀ fuel, RegAccess.EngAppends
      (RegAccess.i2c_start_poll dev i2c peripheral_i2c_address fuel) := by
  intro fuel
  induction fuel with
  | zero => exact appends_throwE _
  | succ fuel ih =>
    simp only [RegAccess.i2c_start_poll]
    apply appends_bind _ _ (appends_write_uint32 dev i2c.reg_control _ none true)
    intro _
    apply appends_bind _ _ (appends_read_uint32 dev i2c.reg_control none)
    intro value
    apply appends_ite
    · exact appends_pureE ()
    · exact appends_retryStep _ ih

/-- Footprint of the I2C done polling loop. -/
theorem appends_i2c_done_poll (dev : RegAccess.Dev) (i2c : RegAccess.I2c) :
    ∀ fuel, RegAccess.EngAppends (RegAccess.i2c_done_poll dev i2c fuel) := by
  intro fuel
  induction fuel with
  | zero => exact appends_throwE _
  | succ fuel ih =>
    simp only [RegAccess.i2c_done_poll]
    apply appends_bind _ _ (appends_read_uint32 dev i2c.reg_control none)
    intro value
    apply appends_ite
    · exact appends_pureE ()
    · exact appends_retryStep _ ih

/-- Footprint of the SPI busy polling loop. -/
theorem appends_spi_busy_poll (dev : RegAccess.Dev) (spi : RegAccess.Spi) :
    ∀ fuel, RegAccess.EngAppends (RegAccess.spi_busy_poll dev spi fuel) := by
  intro fuel
  induction fuel with
  | zero => exact appends_throwE _
  | succ fuel ih =>
    simp only [RegAccess.spi_busy_poll]
    apply appends_bind _ _ (appends_read_uint32 dev spi.reg_control none)
    intro value
    apply appends_ite
    · exact appends_pureE ()
    · exact appends_retryStep _ ih

/-- Footprint of the error-swallowing wrapper. -/
theorem appends_try_ignore {α : Type} (m : RegAccess.EngM α)
    (h : RegAccess.EngAppends m) : RegAccess.EngAppends (RegAccess.try_ignore m) := by
  intro st
  unfold RegAccess.try_ignore
  cases hm : m st with
  | mk res st1 =>
    have hs := h st
    rw [hm] at hs
    cases res with
    | ok a => simpa using hs
    | error e => simpa using hs

/-- Footprint of the sequence-counter resynchronization. -/
theorem appends_resync_sequence :
    RegAccess.EngAppends RegAccess.resync_sequence := by
  intro st
  exact ⟨rfl, [], by simp [RegAccess.resync_sequence]⟩

/-- Footprint of the SPI transaction body. -/
theorem appends_spi_transaction_body (spi : RegAccess.Spi) (dev : RegAccess.Dev)
    (write_bytes : List Nat) (write_command_count read_byte_count : Nat) :
    RegAccess.EngAppends (RegAccess.spi_transaction_body spi dev write_bytes
      write_command_count read_byte_count) := by
  unfold RegAccess.spi_transaction_body
  apply appends_bind _ _ (appends_read_uint32 dev spi.reg_control none)
  intro value
  apply appends_ite
  · exact appends_throwE _
  · apply appends_bind _ _ (appends_write_uint32 dev spi.reg_spi_cfg _ none true)
    intro _
    apply appends_bind _ _ (appends_write_payload dev spi.reg_data_buffer _ 0)
    intro _
    apply appends_bind _ _ (appends_write_uint32 dev spi.reg_num_bytes _ none true)
    intro _
    apply appends_ite
    · exact appends_throwE _
    · apply appends_bind _ _
        (appends_write_uint32 dev spi.reg_num_bytes2 _ none true)
      intro _
      apply appends_bind _ _
        (appends_write_uint32 dev spi.reg_control SPI_START none false)
      intro status
      apply appends_ite
      · exact appends_throwE _
      · apply appends_bind _ _
          (appends_withBudgetFuel _ (appends_spi_busy_poll dev spi))
        intro _
        apply appends_bind _ _ (appends_read_words dev spi.reg_data_buffer _ _)
        intro bytes
        exact appends_pure _

/-- Footprint of `spi_transaction`. -/
theorem appends_spi_transaction (spi : RegAccess.Spi) (dev : RegAccess.Dev)
    (write_command_bytes write_data_bytes : List Nat)
    (read_byte_count : Nat) :
    RegAccess.EngAppends (RegAccess.spi_transaction spi dev write_command_bytes
      write_data_bytes read_byte_count) := by
  intro st
  unfold RegAccess.spi_transaction
  by_cases h16 : write_command_bytes.length ≥ 16
  · exact ⟨by simp [h16], [], by simp [h16]⟩
  · by_cases h288 : 288 ≤ write_command_bytes.length +
      write_data_bytes.length + read_byte_count
    · exact ⟨by simp [h16, h288], [], by simp [h16, h288]⟩
    · have := appends_spi_transaction_body spi dev
        (write_command_bytes ++ write_data_bytes)
        write_command_bytes.length read_byte_count
        { st with budget := RegAccess.SPI_BUDGET }
      simpa [h16, h288] using this

/-- Inversion: a successful bind passes through a successful first
component. -/
theorem bindE_ok_inv {α β : Type} (m : RegAccess.EngM α) (f : α → RegAccess.EngM β)
    (st : RegAccess.DState) (b : β) (st' : RegAccess.DState)
    (h : RegAccess.EngM.bindE m f st = (Except.ok b, st')) :
    ∃ a st1, m st = (Except.ok a, st1) ∧ f a st1 = (Except.ok b, st') := by
  unfold RegAccess.EngM.bindE at h
  cases hm : m st with
  | mk res st1 =>
    rw [hm] at h
    cases res with
    | error e => dsimp only at h; simp at h
    | ok a => exact ⟨a, st1, rfl, h⟩

/-- Inversion: a successful `pure` returns its argument and leaves the
state alone. -/
theorem pureE_ok_inv {α : Type} (a : α) (st : RegAccess.DState) (b : α)
    (st' : RegAccess.DState)
    (h : RegAccess.EngM.pureE a st = (Except.ok b, st')) :
    b = a ∧ st' = st := by
  simp [RegAccess.EngM.pureE] at h
  exact ⟨h.1.symm, h.2.symm⟩

/-- Inversion of a successful read attempt loop: the result is a 32-bit
value, the listener log is untouched, and the trace grew by a non-empty
run of read attempts of the same address whose first attempt carries the
entry sequence number; the counter advanced once per attempt. -/
theorem read_loop_ok_inv (dev : RegAccess.Dev) (address : Nat) :
    ∀ (fuel : Nat) (st : RegAccess.DState) (v : Nat) (st' : RegAccess.DState),
      RegAccess.read_loop dev address fuel st = (Except.ok v, st') →
      v < 4294967296 ∧
      st'.listeners = st.listeners ∧
      ∃ t2 : List RegAccess.Reg,
        st'.trace = st.trace ++ (RegAccess.Reg.rd address st.sequence :: t2) ∧
        (∀ a ∈ t2, ∃ s2, a = RegAccess.Reg.rd address s2) ∧
        st'.sequence = RegAccess.nextSeq^[t2.length + 1] st.sequence := by
  intro fuel
  induction fuel with
  | zero =>
    intro st v st' h
    simp [RegAccess.read_loop, RegAccess.throwE] at h
  | succ fuel ih =>
    intro st v st' h
    simp only [RegAccess.read_loop] at h
    cases hout : dev.rd st.trace address with
    | reply rc v2 =>
      rw [hout] at h
      dsimp only at h
      by_cases hrc : rc = RESPONSE_SUCCESS
      · rw [if_pos hrc] at h
        simp only [Prod.mk.injEq, Except.ok.injEq] at h
        obtain ⟨hv, hst⟩ := h
        subst hv
        subst hst
        refine ⟨Nat.mod_lt _ (by omega), rfl, [], by simp, by simp, ?_⟩
        simp [Function.iterate_one]
      · rw [if_neg hrc] at h
        simp at h
    | timeout =>
      rw [hout] at h
      dsimp only at h
      by_cases hb : st.budget = 0
      · rw [if_pos hb] at h
        simp at h
      · rw [if_neg hb] at h
        obtain ⟨hv, hl, t2, ht, hmem, hs⟩ := ih _ v st' h
        refine ⟨hv, by simpa using hl,
          RegAccess.Reg.rd address (RegAccess.nextSeq st.sequence) :: t2, ?_, ?_, ?_⟩
        · rw [ht]
          simp [List.append_assoc]
        · intro a ha
          rcases List.mem_cons.mp ha with hhead | htail
          · exact ⟨RegAccess.nextSeq st.sequence, hhead⟩
          · exact hmem a htail
        · rw [hs]
          simp only [List.length_cons]
          simp [Function.iterate_succ_apply]

/-- Inversion of a successful `read_uint32`. -/
theorem read_uint32_ok_inv (dev : RegAccess.Dev) (address : Nat)
    (tmo : Option Nat) (st : RegAccess.DState) (v : Nat) (st' : RegAccess.DState)
    (h : RegAccess.read_uint32 dev address tmo st = (Except.ok v, st')) :
    v < 4294967296 ∧
    st'.listeners = st.listeners ∧
    ∃ t2 : List RegAccess.Reg,
      st'.trace = st.trace ++ (RegAccess.Reg.rd address st.sequence :: t2) ∧
      (∀ a ∈ t2, ∃ s2, a = RegAccess.Reg.rd address s2) ∧
      st'.sequence = RegAccess.nextSeq^[t2.length + 1] st.sequence := by
  unfold RegAccess.read_uint32 at h
  by_cases ha : address % 4 ≠ 0
  · rw [if_pos ha] at h
    simp at h
  · rw [if_neg ha] at h
    cases tmo with
    | none => exact read_loop_ok_inv dev address _ st v st' h
    | some b =>
      have := read_loop_ok_inv dev address _ { st with budget := b } v st' h
      simpa using this

/-- The 16-bit counter after `k` increments from a in-range value. -/
theorem nextSeq_iterate (k : Nat) :
    ∀ s : Nat, s < 65536 → RegAccess.nextSeq^[k] s = (s + k) % 65536 := by
  induction k with
  | zero =>
    intro s hs
    simp [Nat.mod_eq_of_lt hs]
  | succ k ih =>
    intro s hs
    rw [Function.iterate_succ_apply]
    rw [ih (RegAccess.nextSeq s) (Nat.mod_lt _ (by omega))]
    unfold RegAccess.nextSeq
    rw [Nat.mod_add_mod]
    congr 1
    omega

/-- Inversion of a successful read-back loop: the returned bytes are the
little-endian unpacking of one 32-bit word per requested buffer word, and
the trace grew by one non-empty run of read attempts per word, at
consecutive word addresses. -/
theorem read_words_ok_inv (dev : RegAccess.Dev) (base : Nat) :
    ∀ (k i : Nat) (st : RegAccess.DState) (bs : List Nat) (st' : RegAccess.DState),
      RegAccess.read_words dev base i k st = (Except.ok bs, st') →
      ∃ (ws : List Nat) (runs : List (List RegAccess.Reg)),
        bs = ws.flatMap RegAccess.le_bytes4 ∧
        ws.length = k ∧
        runs.length = k ∧
        st'.listeners = st.listeners ∧
        st'.trace = st.trace ++ runs.flatten ∧
        ∀ j (hj : j < runs.length),
          runs.get ⟨j, hj⟩ ≠ [] ∧
          ∀ a ∈ runs.get ⟨j, hj⟩,
            ∃ s2, a = RegAccess.Reg.rd (base + 4 * (i + j)) s2 := by
  intro k
  induction k with
  | zero =>
    intro i st bs st' h
    simp [RegAccess.read_words, RegAccess.EngM.pureE] at h
    refine ⟨[], [], by simp [h.1], rfl, rfl, by rw [h.2], ?_, ?_⟩
    · rw [h.2]
      simp
    · intro j hj
      simp at hj
  | succ k ih =>
    intro i st bs st' h
    simp only [RegAccess.read_words, engm_bind_def] at h
    obtain ⟨v, st1, h1, h⟩ := bindE_ok_inv _ _ _ _ _ h
    obtain ⟨bs', st2, h2, h⟩ := bindE_ok_inv _ _ _ _ _ h
    rw [engm_pure_def] at h
    obtain ⟨hbs, hst⟩ := pureE_ok_inv _ _ _ _ h
    obtain ⟨hv, hl1, t2, ht1, hmem1, _⟩ := read_uint32_ok_inv _ _ _ _ _ _ h1
    obtain ⟨ws', runs', hbs', hws', hruns', hl2, ht2, hidx⟩ := ih (i + 1)
      st1 bs' st2 h2
    refine ⟨v :: ws',
      (RegAccess.Reg.rd (base + 4 * i) st.sequence :: t2) :: runs',
      ?_, by simp [hws'], by simp [hruns'], ?_, ?_, ?_⟩
    · rw [hbs, hbs']
      simp [List.flatMap_cons]
    · rw [hst, hl2, hl1]
    · rw [hst, ht2, ht1]
      simp [List.append_assoc]
    · intro j hj
      cases j with
      | zero =>
        constructor
        · simp
        · intro a ha
          rcases List.mem_cons.mp ha with hhead | htail
          · exact ⟨st.sequence, by simpa using hhead⟩
          · obtain ⟨s2, hs2⟩ := hmem1 a htail
            exact ⟨s2, by simpa using hs2⟩
      | succ j =>
        simp only [List.get_cons_succ]
        simp only [List.length_cons] at hj
        have hj' : j < runs'.length := by omega
        obtain ⟨hne, hall⟩ := hidx j hj'
        refine ⟨hne, ?_⟩
        intro a ha
        obtain ⟨s2, hs2⟩ := hall a ha
        refine ⟨s2, ?_⟩
        rw [hs2]
        congr 1
        omega

/-- A successful well-footprinted step only appends to the trace. -/
theorem EngAppends.ok_trace {α : Type} {m : RegAccess.EngM α}
    (h : RegAccess.EngAppends m) {st : RegAccess.DState} {a : α}
    {st' : RegAccess.DState} (hm : m st = (Except.ok a, st')) :
    ∃ t, st'.trace = st.trace ++ t := by
  have h2 := h st
  rw [hm] at h2
  simpa using h2.2

/-- Four little-endian bytes per word. -/
theorem flatMap_le_bytes4_length (ws : List Nat) :
    (ws.flatMap RegAccess.le_bytes4).length = 4 * ws.length := by
  induction ws with
  | nil => simp
  | cons w ws ih =>
    simp [List.flatMap_cons, RegAccess.le_bytes4, ih]
    omega

/-- Claim C9: an `i2c_transaction` that reaches the read-back phase (that
is, returns successfully) with `read_byte_count < 0x100` reads exactly
ceil(read_byte_count/4) data-buffer words at consecutive word addresses,
unpacks each word little-endian (byte `i` of the result is bits
`8*(i mod 4)` of word `i/4`), and returns exactly `read_byte_count`
bytes. -/
theorem i2c_read_back_words_le_exact_length
    (base peripheral_i2c_address : Nat) (write_bytes : List Nat)
    (read_byte_count : Nat) (dev : RegAccess.Dev) (st : RegAccess.DState)
    (r : List Nat) (st' : RegAccess.DState)
    (_hrbc : read_byte_count < 0x100)
    (h : RegAccess.i2c_transaction (RegAccess.I2c.ofAddress base) dev
      peripheral_i2c_address write_bytes read_byte_count st =
      (Except.ok r, st')) :
    r.length = read_byte_count ∧
    ∃ (ws : List Nat) (pre : List RegAccess.Reg) (runs : List (List RegAccess.Reg)),
      ws.length = (read_byte_count + 3) / 4 ∧
      r = (ws.flatMap RegAccess.le_bytes4).take read_byte_count ∧
      runs.length = (read_byte_count + 3) / 4 ∧
      st'.trace = st.trace ++ pre ++ runs.flatten ∧
      ∀ j (hj : j < runs.length),
        runs.get ⟨j, hj⟩ ≠ [] ∧
        ∀ a ∈ runs.get ⟨j, hj⟩,
          ∃ s2, a = RegAccess.Reg.rd
            ((RegAccess.I2c.ofAddress base).reg_data_buffer + 4 * j) s2 := by
  simp only [RegAccess.i2c_transaction] at h
  split at h
  · simp at h
  · split at h
    · simp at h
    · split at h
      · simp at h
      · simp only [RegAccess.i2c_transaction_body, engm_bind_def] at h
        obtain ⟨value, st1, h1, h⟩ := bindE_ok_inv _ _ _ _ _ h
        split at h
        · simp [RegAccess.throwE] at h
        · obtain ⟨_, st2, h2, h⟩ := bindE_ok_inv _ _ _ _ _ h
          obtain ⟨_, st3, h3, h⟩ := bindE_ok_inv _ _ _ _ _ h
          obtain ⟨value2, st4, h4, h⟩ := bindE_ok_inv _ _ _ _ _ h
          split at h
          · simp [RegAccess.throwE] at h
          · obtain ⟨_, st5, h5, h⟩ := bindE_ok_inv _ _ _ _ _ h
            obtain ⟨_, st6, h6, h⟩ := bindE_ok_inv _ _ _ _ _ h
            obtain ⟨_, st7, h7, h⟩ := bindE_ok_inv _ _ _ _ _ h
            obtain ⟨_, st8, h8, h⟩ := bindE_ok_inv _ _ _ _ _ h
            obtain ⟨rr, st9, h9, h⟩ := bindE_ok_inv _ _ _ _ _ h
            rw [engm_pure_def] at h
            obtain ⟨hr, hst⟩ := pureE_ok_inv _ _ _ _ h
            obtain ⟨ws, runs, hbs, hws, hruns, _, ht9, hidx⟩ :=
              read_words_ok_inv _ _ _ 0 _ _ _ h9
            obtain ⟨t1, ht1⟩ :=
              EngAppends.ok_trace (appends_read_uint32 _ _ _) h1
            obtain ⟨t2, ht2⟩ :=
              EngAppends.ok_trace (appends_write_uint32 _ _ _ _ _) h2
            obtain ⟨t3, ht3⟩ :=
              EngAppends.ok_trace (appends_write_uint32 _ _ _ _ _) h3
            obtain ⟨t4, ht4⟩ :=
              EngAppends.ok_trace (appends_read_uint32 _ _ _) h4
            obtain ⟨t5, ht5⟩ :=
              EngAppends.ok_trace (appends_write_uint32 _ _ _ _ _) h5
            obtain ⟨t6, ht6⟩ :=
              EngAppends.ok_trace (appends_write_payload _ _ _ _) h6
            obtain ⟨t7, ht7⟩ :=
              EngAppends.ok_trace
                (appends_withBudgetFuel _ (appends_i2c_start_poll _ _ _)) h7
            obtain ⟨t8, ht8⟩ :=
              EngAppends.ok_trace
                (appends_withBudgetFuel _ (appends_i2c_done_poll _ _)) h8
            have hrr : rr.length = 4 * ((read_byte_count + 3) / 4) := by
              rw [hbs, flatMap_le_bytes4_length, hws]
            refine ⟨?_, ws,
              t1 ++ t2 ++ t3 ++ t4 ++ t5 ++ t6 ++ t7 ++ t8, runs,
              hws, by rw [hr, hbs], hruns, ?_, ?_⟩
            · rw [hr, List.length_take, hrr]
              omega
            · rw [hst, ht9, ht8, ht7, ht6, ht5, ht4, ht3, ht2, ht1]
              simp [List.append_assoc]
            · intro j hj
              obtain ⟨hne, hall⟩ := hidx j hj
              refine ⟨hne, ?_⟩
              intro a ha
              obtain ⟨s2, hs2⟩ := hall a ha
              exact ⟨s2, by simpa using hs2⟩

/-- Witness for C9: a concrete transaction requesting five read bytes
returns exactly the five little-endian bytes of the two buffer words. -/
theorem i2c_read_back_words_le_exact_length_witness :
    ([17, 34, 51, 68, 85] : List Nat).length = 5 ∧
    ∃ (ws : List Nat) (pre : List RegAccess.Reg) (runs : List (List RegAccess.Reg)),
      ws.length = (5 + 3) / 4 ∧
      ([17, 34, 51, 68, 85] : List Nat) =
        (ws.flatMap RegAccess.le_bytes4).take 5 ∧
      runs.length = (5 + 3) / 4 ∧
      ({ sequence := 267, budget := 20,
         trace := [RegAccess.Reg.rd 1024 256, RegAccess.Reg.wr 1024 5242898 257,
           RegAccess.Reg.wr 1024 5242882 258, RegAccess.Reg.rd 1024 259,
           RegAccess.Reg.wr 1028 1282 260, RegAccess.Reg.wr 1040 52651 261,
           RegAccess.Reg.wr 1024 5242883 262, RegAccess.Reg.rd 1024 263,
           RegAccess.Reg.rd 1024 264, RegAccess.Reg.rd 1040 265,
           RegAccess.Reg.rd 1044 266]
         listeners := [] } : RegAccess.DState).trace =
        RegAccess.st0.trace ++ pre ++ runs.flatten ∧
      ∀ j (hj : j < runs.length),
        runs.get ⟨j, hj⟩ ≠ [] ∧
        ∀ a ∈ runs.get ⟨j, hj⟩,
          ∃ s2, a = RegAccess.Reg.rd
            ((RegAccess.I2c.ofAddress 0x400).reg_data_buffer + 4 * j) s2 :=
  i2c_read_back_words_le_exact_length 0x400 0x50 [0xAB, 0xCD] 5
    RegAccess.i2cDemoDev RegAccess.st0 [17, 34, 51, 68, 85]
    { sequence := 267, budget := 20,
      trace := [RegAccess.Reg.rd 1024 256, RegAccess.Reg.wr 1024 5242898 257,
        RegAccess.Reg.wr 1024 5242882 258, RegAccess.Reg.rd 1024 259,
        RegAccess.Reg.wr 1028 1282 260, RegAccess.Reg.wr 1040 52651 261,
        RegAccess.Reg.wr 1024 5242883 262, RegAccess.Reg.rd 1024 263,
        RegAccess.Reg.rd 1024 264, RegAccess.Reg.rd 1040 265,
        RegAccess.Reg.rd 1044 266]
      listeners := [] } (by decide)
    (by simp [RegAccess.i2c_transaction, RegAccess.i2c_transaction_body,
      engm_bind_def, RegAccess.EngM.bindE, engm_pure_def, RegAccess.EngM.pureE,
      RegAccess.read_uint32, RegAccess.read_loop, RegAccess.write_uint32,
      RegAccess.write_loop, RegAccess.write_payload, RegAccess.read_words,
      RegAccess.i2c_start_poll, RegAccess.i2c_done_poll, RegAccess.retryStep,
      RegAccess.withBudgetFuel, RegAccess.i2cDemoDev, RegAccess.st0,
      RegAccess.I2c.ofAddress, RegAccess.nextSeq, RegAccess.le_words, RegAccess.pack_le,
      RegAccess.le_bytes4, RegAccess.throwE, RegAccess.I2C_BUDGET, I2C_BUSY, I2C_DONE,
      I2C_START, I2C_CORE_EN, I2C_DONE_CLEAR, RESPONSE_SUCCESS])

/-- A successful well-footprinted step keeps the listener log. -/
theorem EngAppends.ok_listeners {α : Type} {m : RegAccess.EngM α}
    (h : RegAccess.EngAppends m) {st : RegAccess.DState} {a : α}
    {st' : RegAccess.DState} (hm : m st = (Except.ok a, st')) :
    st'.listeners = st.listeners := by
  have h2 := h st
  rw [hm] at h2
  simpa using h2.1

/-- The listener-notification loop appends exactly the registered
controllers, in order, and touches nothing else. -/
theorem notify_eq : ∀ (cs : List Nat) (st : RegAccess.DState),
    RegAccess.notify_reset_controllers cs st =
      (Except.ok (), { st with listeners := st.listeners ++ cs }) := by
  intro cs
  induction cs with
  | nil =>
    intro st
    simp [RegAccess.notify_reset_controllers, RegAccess.EngM.pureE]
  | cons c cs ih =>
    intro st
    simp only [RegAccess.notify_reset_controllers]
    rw [ih]
    simp

/-- Full evaluation of `reset` against the immediately-acknowledging
device: it succeeds, fires both listeners in order, and ends with the
sequence counter at 2 — the liveness version re-read (the final trace
entry) carried sequence number 1. -/
theorem reset_happy_eval :
    RegAccess.reset RegAccess.happyDev [7, 8] RegAccess.st0 =
      (Except.ok (),
        { sequence := 2, budget := 150,
          trace := [RegAccess.Reg.rd 768 256, RegAccess.Reg.wr 776 47 257,
            RegAccess.Reg.wr 784 788225 258, RegAccess.Reg.wr 772 3 259,
            RegAccess.Reg.wr 780 512 260, RegAccess.Reg.wr 768 1 261,
            RegAccess.Reg.rd 768 262, RegAccess.Reg.rd 784 263,
            RegAccess.Reg.wr 8 0 264, RegAccess.Reg.rd 768 265,
            RegAccess.Reg.wr 776 47 266, RegAccess.Reg.wr 784 984833 267,
            RegAccess.Reg.wr 772 3 268, RegAccess.Reg.wr 780 512 269,
            RegAccess.Reg.wr 768 1 270, RegAccess.Reg.rd 768 271,
            RegAccess.Reg.rd 784 272, RegAccess.Reg.wr 8 3 273,
            RegAccess.Reg.wr 4 8 274, RegAccess.Reg.rd 128 1]
          listeners := [7, 8] }) := by
  simp [RegAccess.reset, RegAccess.get_spi, RegAccess.width_map, RegAccess.Spi.ofAddress,
      RegAccess.spi_transaction, RegAccess.spi_transaction_body,
      RegAccess.spi_busy_poll, RegAccess.try_ignore, RegAccess.resync_sequence,
      RegAccess.get_fpga_version, RegAccess.notify_reset_controllers,
      engm_bind_def, RegAccess.EngM.bindE, engm_pure_def, RegAccess.EngM.pureE,
      RegAccess.read_uint32, RegAccess.read_loop, RegAccess.write_uint32,
      RegAccess.write_loop, RegAccess.write_payload, RegAccess.read_words,
      RegAccess.retryStep, RegAccess.withBudgetFuel, RegAccess.happyDev, RegAccess.st0,
      RegAccess.nextSeq, RegAccess.le_words, RegAccess.pack_le, RegAccess.le_bytes4,
      RegAccess.throwE, RegAccess.SPI_BUDGET, RegAccess.DEFAULT_BUDGET,
      RegAccess.GET_VERSION_BUDGET, SPI_START, SPI_BUSY, SPI_CFG_CPOL,
      SPI_CFG_CPHA, RESPONSE_SUCCESS, CLNX_SPI_CTRL, FPGA_VERSION]

/-- Counterexample to claim C3 as stated: with a device acknowledging
every request on the first attempt, `reset` completes successfully, every
listener fires once in order — but the sequence counter ends at 2, not 1:
the liveness version re-read after the resynchronization consumes
sequence number 1. -/
theorem reset_sequence_counter_not_one_counterexample :
    (RegAccess.reset RegAccess.happyDev [7, 8] RegAccess.st0).1 = Except.ok () ∧
    ¬ (RegAccess.reset RegAccess.happyDev [7, 8] RegAccess.st0).2.sequence = 1 ∧
    (RegAccess.reset RegAccess.happyDev [7, 8] RegAccess.st0).2.sequence = 2 ∧
    (RegAccess.reset RegAccess.happyDev [7, 8] RegAccess.st0).2.listeners = [7, 8] := by
  rw [reset_happy_eval]
  exact ⟨rfl, by decide, rfl, rfl⟩

/-- Claim C3 as amended: after `reset()` completes successfully, every
reset listener registered via `on_reset` has been invoked synchronously
exactly once, in registration order; the sequence counter is
resynchronized to 1 immediately before the liveness version re-read — so
that re-read's first attempt carries sequence number 1 — and `reset`
returns with the counter at 2 plus the number of extra attempts that
re-read needed. -/
theorem reset_listeners_in_order_and_first_postresync_sequence_one
    (dev : RegAccess.Dev) (reset_controllers : List Nat)
    (st st' : RegAccess.DState)
    (h : RegAccess.reset dev reset_controllers st = (Except.ok (), st')) :
    st'.listeners = st.listeners ++ reset_controllers ∧
    ∃ (t1 t2 : List RegAccess.Reg),
      st'.trace = st.trace ++ t1 ++ (RegAccess.Reg.rd FPGA_VERSION 1 :: t2) ∧
      (∀ a ∈ t2, ∃ s2, a = RegAccess.Reg.rd FPGA_VERSION s2) ∧
      st'.sequence = (2 + t2.length) % 65536 := by
  have hspi : RegAccess.get_spi CLNX_SPI_CTRL 0 15 0 1 1 =
      Except.ok (RegAccess.Spi.ofAddress CLNX_SPI_CTRL 47) := by
    simp [RegAccess.get_spi, RegAccess.width_map, SPI_CFG_CPOL, SPI_CFG_CPHA]
  unfold RegAccess.reset at h
  rw [hspi] at h
  dsimp only at h
  simp only [engm_bind_def] at h
  obtain ⟨_, st1, h1, h⟩ := bindE_ok_inv _ _ _ _ _ h
  obtain ⟨_, st2, h2, h⟩ := bindE_ok_inv _ _ _ _ _ h
  obtain ⟨_, st3, h3, h⟩ := bindE_ok_inv _ _ _ _ _ h
  obtain ⟨_, st4, h4, h⟩ := bindE_ok_inv _ _ _ _ _ h
  obtain ⟨_, st5, h5, h⟩ := bindE_ok_inv _ _ _ _ _ h
  obtain ⟨_, st6, h6, h⟩ := bindE_ok_inv _ _ _ _ _ h
  obtain ⟨v, st7, h7, h⟩ := bindE_ok_inv _ _ _ _ _ h
  rw [notify_eq] at h
  simp only [Prod.mk.injEq] at h
  obtain ⟨-, hst'⟩ := h
  simp only [RegAccess.resync_sequence, Prod.mk.injEq] at h6
  obtain ⟨-, hst6⟩ := h6
  obtain ⟨_, hl7, t2, ht7, hmem, hs7⟩ :=
    read_uint32_ok_inv _ _ _ _ _ _ h7
  obtain ⟨ta, hta⟩ :=
    EngAppends.ok_trace (appends_spi_transaction _ _ _ _ _) h1
  obtain ⟨tb, htb⟩ :=
    EngAppends.ok_trace (appends_write_uint32 _ _ _ _ _) h2
  obtain ⟨tc, htc⟩ :=
    EngAppends.ok_trace (appends_spi_transaction _ _ _ _ _) h3
  obtain ⟨td, htd⟩ :=
    EngAppends.ok_trace (appends_write_uint32 _ _ _ _ _) h4
  obtain ⟨te, hte⟩ :=
    EngAppends.ok_trace
      (appends_try_ignore _ (appends_write_uint32 _ _ _ _ _)) h5
  have hla := EngAppends.ok_listeners (appends_spi_transaction _ _ _ _ _) h1
  have hlb := EngAppends.ok_listeners (appends_write_uint32 _ _ _ _ _) h2
  have hlc := EngAppends.ok_listeners (appends_spi_transaction _ _ _ _ _) h3
  have hld := EngAppends.ok_listeners (appends_write_uint32 _ _ _ _ _) h4
  have hle := EngAppends.ok_listeners
    (appends_try_ignore _ (appends_write_uint32 _ _ _ _ _)) h5
  constructor
  · rw [← hst']
    simp only []
    rw [hl7, ← hst6]
    simp only []
    rw [hle, hld, hlc, hlb, hla]
  · refine ⟨ta ++ tb ++ tc ++ td ++ te, t2, ?_, hmem, ?_⟩
    · rw [← hst']
      simp only []
      rw [ht7, ← hst6]
      simp only []
      rw [hte, htd, htc, htb, hta]
      have hseq6 : ({ st5 with sequence := 1 } : RegAccess.DState).sequence = 1 :=
        rfl
      simp [List.append_assoc]
    · rw [← hst']
      simp only []
      rw [hs7, ← hst6]
      simp only []
      rw [nextSeq_iterate _ 1 (by omega)]
      congr 1
      omega

/-- Witness for the amended C3: on the concrete successful reset, the
listener log is exactly the two registrations in order, the liveness
re-read carries sequence 1, and the final counter is 2 plus the re-read's
extra attempts (here zero). -/
theorem reset_listeners_in_order_and_first_postresync_sequence_one_witness :
    ({ sequence := 2, budget := 150,
       trace := [RegAccess.Reg.rd 768 256, RegAccess.Reg.wr 776 47 257,
         RegAccess.Reg.wr 784 788225 258, RegAccess.Reg.wr 772 3 259,
         RegAccess.Reg.wr 780 512 260, RegAccess.Reg.wr 768 1 261,
         RegAccess.Reg.rd 768 262, RegAccess.Reg.rd 784 263,
         RegAccess.Reg.wr 8 0 264, RegAccess.Reg.rd 768 265,
         RegAccess.Reg.wr 776 47 266, RegAccess.Reg.wr 784 984833 267,
         RegAccess.Reg.wr 772 3 268, RegAccess.Reg.wr 780 512 269,
         RegAccess.Reg.wr 768 1 270, RegAccess.Reg.rd 768 271,
         RegAccess.Reg.rd 784 272, RegAccess.Reg.wr 8 3 273,
         RegAccess.Reg.wr 4 8 274, RegAccess.Reg.rd 128 1]
       listeners := [7, 8] } : RegAccess.DState).listeners =
      RegAccess.st0.listeners ++ [7, 8] ∧
    ∃ (t1 t2 : List RegAccess.Reg),
      ({ sequence := 2, budget := 150,
         trace := [RegAccess.Reg.rd 768 256, RegAccess.Reg.wr 776 47 257,
           RegAccess.Reg.wr 784 788225 258, RegAccess.Reg.wr 772 3 259,
           RegAccess.Reg.wr 780 512 260, RegAccess.Reg.wr 768 1 261,
           RegAccess.Reg.rd 768 262, RegAccess.Reg.rd 784 263,
           RegAccess.Reg.wr 8 0 264, RegAccess.Reg.rd 768 265,
           RegAccess.Reg.wr 776 47 266, RegAccess.Reg.wr 784 984833 267,
           RegAccess.Reg.wr 772 3 268, RegAccess.Reg.wr 780 512 269,
           RegAccess.Reg.wr 768 1 270, RegAccess.Reg.rd 768 271,
           RegAccess.Reg.rd 784 272, RegAccess.Reg.wr 8 3 273,
           RegAccess.Reg.wr 4 8 274, RegAccess.Reg.rd 128 1]
         listeners := [7, 8] } : RegAccess.DState).trace =
        RegAccess.st0.trace ++ t1 ++ (RegAccess.Reg.rd FPGA_VERSION 1 :: t2) ∧
      (∀ a ∈ t2, ∃ s2, a = RegAccess.Reg.rd FPGA_VERSION s2) ∧
      ({ sequence := 2, budget := 150,
         trace := [RegAccess.Reg.rd 768 256, RegAccess.Reg.wr 776 47 257,
           RegAccess.Reg.wr 784 788225 258, RegAccess.Reg.wr 772 3 259,
           RegAccess.Reg.wr 780 512 260, RegAccess.Reg.wr 768 1 261,
           RegAccess.Reg.rd 768 262, RegAccess.Reg.rd 784 263,
           RegAccess.Reg.wr 8 0 264, RegAccess.Reg.rd 768 265,
           RegAccess.Reg.wr 776 47 266, RegAccess.Reg.wr 784 984833 267,
           RegAccess.Reg.wr 772 3 268, RegAccess.Reg.wr 780 512 269,
           RegAccess.Reg.wr 768 1 270, RegAccess.Reg.rd 768 271,
           RegAccess.Reg.rd 784 272, RegAccess.Reg.wr 8 3 273,
           RegAccess.Reg.wr 4 8 274, RegAccess.Reg.rd 128 1]
         listeners := [7, 8] } : RegAccess.DState).sequence =
        (2 + t2.length) % 65536 :=
  reset_listeners_in_order_and_first_postresync_sequence_one
    RegAccess.happyDev [7, 8] RegAccess.st0 _ reset_happy_eval
